import Mathlib

/-!
Verification development for the css-module-lexer dependency analyzer.

The dependency visitor is embedded from `src/dependencies.rs`.  Byte
positions (`Pos = usize`) are modelled as `Nat` indices into the source
represented as a `List Char`; for the ASCII sources considered here a byte
offset and a character index coincide.  Rust's `Vec` of balanced items is
modelled as a list whose head is the top of the stack (`Vec::push`/`pop`
and `last()` act on the stack top).  Rust slices returning `Option` only
fail on out-of-bounds ranges; the model's `slice` totalises this by
clamping, which agrees with the source on every in-bounds range.

The streaming tokenizer lives in `src/lexer.rs`, which is not part of the
analyzed sources; it is modelled from the specification (section 4.1) as a
fuel-indexed step function that recognizes tokens and dispatches them to
the visitor functions embedded from `src/dependencies.rs`.
-/

namespace CML

/-- Character classification: CSS whitespace (`is_white_space` in the lexer,
spec section 4.1: U+0009, U+000A, U+000C, U+000D, U+0020). -/
def isWhiteSpace (c : Char) : Bool :=
  c = ' ' || c = '\t' || c = '\n' || c = '\x0c' || c = '\r'

/-- ASCII letter test. -/
def isAsciiLetter (c : Char) : Bool :=
  ('a' ≤ c && c ≤ 'z') || ('A' ≤ c && c ≤ 'Z')

/-- ASCII digit test. -/
def isAsciiDigit (c : Char) : Bool :=
  '0' ≤ c && c ≤ '9'

/-- Modelled from the spec: ident-start character (letter, `_`, or
non-ASCII at or above U+0080); escapes and hyphens are handled at the
token recognizers. -/
def isIdentStartChar (c : Char) : Bool :=
  isAsciiLetter c || c = '_' || decide (0x80 ≤ c.toNat)

/-- Modelled from the spec: ident-continue character (ident-start, digit
or `-`). -/
def isIdentChar (c : Char) : Bool :=
  isIdentStartChar c || isAsciiDigit c || c = '-'

/-- `lexer.slice(start, end)`: the source characters in `[start, end)`,
clamped to the source bounds. -/
def slice (src : List Char) (start stop : Nat) : List Char :=
  (src.drop start).take (stop - start)

/-- Rust `str::to_ascii_lowercase` on a character list. -/
def toLowerAscii (l : List Char) : List Char :=
  l.map fun c => if 'A' ≤ c && c ≤ 'Z' then Char.ofNat (c.toNat + 32) else c

/-- Rust `str::trim_end_matches(is_white_space)`. -/
def trimEndWs (l : List Char) : List Char :=
  (l.reverse.dropWhile isWhiteSpace).reverse

/-- Rust `str::trim_matches(is_white_space)`. -/
def trimWs (l : List Char) : List Char :=
  (trimEndWs l).dropWhile isWhiteSpace

/-- `Range { start, end }` from `dependencies.rs`; half-open over source
positions. -/
structure Range where
  start : Nat
  stop : Nat
deriving DecidableEq, Repr

/-- `CssModulesMode` (Local / Global / None). -/
inductive CssModulesMode
  | Local
  | Global
  | None
deriving DecidableEq, Repr

/-- `CssModulesModeData { default, current }`. -/
structure CssModulesModeData where
  default : CssModulesMode
  current : CssModulesMode
deriving DecidableEq, Repr

/-- `CssModulesModeData::new(local)`; the Rust parameter `local` is a Lean
keyword and is spelled `localDefault` here. -/
def CssModulesModeData.new (localDefault : Bool) : CssModulesModeData :=
  { default := if localDefault then CssModulesMode.Local else CssModulesMode.Global
    current := CssModulesMode.None }

/-- `CssModulesModeData::is_local_mode`. -/
def CssModulesModeData.is_local_mode (m : CssModulesModeData) : Bool :=
  match m.current with
  | CssModulesMode.Local => true
  | CssModulesMode.Global => false
  | CssModulesMode.None =>
    match m.default with
    | CssModulesMode.Local => true
    | CssModulesMode.Global => false
    | CssModulesMode.None => false

/-- `CssModulesModeData::set_local`. -/
def CssModulesModeData.set_local (m : CssModulesModeData) : CssModulesModeData :=
  { m with current := CssModulesMode.Local }

/-- `CssModulesModeData::set_global`. -/
def CssModulesModeData.set_global (m : CssModulesModeData) : CssModulesModeData :=
  { m with current := CssModulesMode.Global }

/-- `CssModulesModeData::set_none`. -/
def CssModulesModeData.set_none (m : CssModulesModeData) : CssModulesModeData :=
  { m with current := CssModulesMode.None }

/-- `ImportDataSupports`. -/
inductive ImportDataSupports
  | None
  | InSupports (start : Nat)
  | EndSupports (value : List Char) (range : Range)
deriving DecidableEq, Repr

/-- `ImportDataLayer`. -/
inductive ImportDataLayer
  | None
  | EndLayer (value : List Char) (range : Range)
deriving DecidableEq, Repr

/-- `ImportData` accumulated across one `@import` rule. -/
structure ImportData where
  start : Nat
  url : Option (List Char)
  url_range : Option Range
  supports : ImportDataSupports
  layer : ImportDataLayer
deriving DecidableEq, Repr

/-- `ImportData::new(start)`. -/
def ImportData.new (start : Nat) : ImportData :=
  { start := start, url := none, url_range := none
    supports := ImportDataSupports.None, layer := ImportDataLayer.None }

/-- `ImportData::in_supports`. -/
def ImportData.in_supports (d : ImportData) : Bool :=
  match d.supports with
  | ImportDataSupports.InSupports _ => true
  | _ => false

/-- `ImportData::layer_range`. -/
def ImportData.layer_range (d : ImportData) : Option Range :=
  match d.layer with
  | ImportDataLayer.EndLayer _ range => some range
  | _ => none

/-- `ImportData::supports_range`. -/
def ImportData.supports_range (d : ImportData) : Option Range :=
  match d.supports with
  | ImportDataSupports.EndSupports _ range => some range
  | _ => none

/-- `BalancedItemKind`. -/
inductive BalancedItemKind
  | Url
  | ImageSet
  | Layer
  | Supports
  | Local
  | Global
  | Other
deriving DecidableEq, Repr

/-- `BalancedItemKind::new(name)` over the lowercased function name. -/
def BalancedItemKind.new (name : List Char) : BalancedItemKind :=
  if name = "url".toList then BalancedItemKind.Url
  else if name = "image-set".toList then BalancedItemKind.ImageSet
  else if name = "layer".toList then BalancedItemKind.Layer
  else if name = "supports".toList then BalancedItemKind.Supports
  else if name = ":local".toList then BalancedItemKind.Local
  else if name = ":global".toList then BalancedItemKind.Global
  else BalancedItemKind.Other

/-- `BalancedItem { kind, range }`. -/
structure BalancedItem where
  kind : BalancedItemKind
  range : Range
deriving DecidableEq, Repr

/-- `BalancedItem::new(name, start, end)`. -/
def BalancedItem.new (name : List Char) (start stop : Nat) : BalancedItem :=
  { kind := BalancedItemKind.new name, range := { start := start, stop := stop } }

/-- `BalancedItem::new_other(start, end)`. -/
def BalancedItem.new_other (start stop : Nat) : BalancedItem :=
  { kind := BalancedItemKind.Other, range := { start := start, stop := stop } }

/-- `UrlRangeKind`. -/
inductive UrlRangeKind
  | Function
  | String
deriving DecidableEq, Repr

/-- `Dependency` records; borrowed slices become character lists. -/
inductive Dependency
  | Url (request : List Char) (range : Range) (kind : UrlRangeKind)
  | Import (request : List Char) (range : Range) (layer : Option (List Char))
      (supports : Option (List Char)) (media : Option (List Char))
  | Replace (content : List Char) (range : Range)
  | LocalIdent (name : List Char) (range : Range)
  | LocalVar (name : List Char) (range : Range)
  | LocalVarDecl (name_range : Range) (name : List Char) (value : List Char)
  | ICSSExport (prop : List Char) (value : List Char)
deriving DecidableEq, Repr

/-- `Warning` records. -/
inductive Warning
  | Unexpected (unexpected : Range) (range : Range)
  | DuplicateUrl (range : Range)
  | NamespaceNotSupportedInBundledCss (range : Range)
  | NotPrecededAtImport (range : Range)
  | ExpectedUrl (range : Range)
  | ExpectedBefore (should_after : Range) (range : Range)
deriving DecidableEq, Repr

/-- `Scope`. -/
inductive Scope
  | TopLevel
  | InBlock
  | InAtImport (data : ImportData)
  | AtImportInvalid
  | AtNamespaceInvalid
deriving DecidableEq, Repr

/-- `LexDependencies` together with the `Collector` sinks: the
`handle_dependency` / `handle_warning` callbacks append to the
`dependencies` / `warnings` lists (in emission order). -/
structure LexDependencies where
  mode_data : Option CssModulesModeData
  scope : Scope
  block_nesting_level : Nat
  allow_import_at_rule : Bool
  balanced : List BalancedItem
  is_next_rule_prelude : Bool
  dependencies : List Dependency
  warnings : List Warning
deriving DecidableEq, Repr

/-- `LexDependencies::new`. -/
def LexDependencies.new (mode_data : Option CssModulesModeData) : LexDependencies :=
  { mode_data := mode_data
    scope := Scope.TopLevel
    block_nesting_level := 0
    allow_import_at_rule := true
    balanced := []
    is_next_rule_prelude := true
    dependencies := []
    warnings := [] }

/-- Modelled from the spec: `src/lexer.rs` is not among the analyzed
sources.  Skips past a `/* ... */` comment body; an unterminated comment
consumes to EOF (spec section 4.1).  `fuel` bounds the recursion and is
always instantiated with at least `src.length + 1`. -/
def skipComment (src : List Char) : Nat → Nat → Nat
  | 0, i => i
  | fuel+1, i =>
    match src[i]? with
    | none => i
    | some c =>
      if c = '*' && src[i+1]? = some '/' then i + 2
      else skipComment src fuel (i + 1)

/-- Modelled from the spec: `Lexer::consume_white_space_and_comments`
skips any run of CSS whitespace and comments (spec section 4.1). -/
def consumeWsComments (src : List Char) : Nat → Nat → Nat
  | 0, i => i
  | fuel+1, i =>
    match src[i]? with
    | none => i
    | some c =>
      if isWhiteSpace c then consumeWsComments src fuel (i + 1)
      else if c = '/' && src[i+1]? = some '*' then
        consumeWsComments src fuel (skipComment src fuel (i + 2))
      else i

/-- Modelled from the spec: `Lexer::consume_ident_sequence` advances past
a CSS ident sequence, handling `\` escapes (spec section 4.1). -/
def consumeIdent (src : List Char) : Nat → Nat → Nat
  | 0, i => i
  | fuel+1, i =>
    match src[i]? with
    | none => i
    | some c =>
      if isIdentChar c then consumeIdent src fuel (i + 1)
      else if c = '\\' && (src[i+1]?).isSome then consumeIdent src fuel (i + 2)
      else i

/-- Modelled from the spec: whether an ident sequence starts at `i`
(letter, `_`, non-ASCII, escape, or `-` followed by one of those or
another `-`). -/
def wouldStartIdent (src : List Char) (i : Nat) : Bool :=
  match src[i]? with
  | none => false
  | some c =>
    isIdentStartChar c || c = '\\' ||
      (c = '-' &&
        (match src[i+1]? with
         | some c2 => isIdentStartChar c2 || c2 = '-' || c2 = '\\'
         | none => false))

/-- Modelled from the spec: consume a string token body starting just
after the opening quote `q`; returns the position one past the closing
quote (escapes and line continuations are `\` + char). -/
def consumeString (src : List Char) (q : Char) : Nat → Nat → Nat
  | 0, i => i
  | fuel+1, i =>
    match src[i]? with
    | none => i
    | some c =>
      if c = q then i + 1
      else if c = '\\' && (src[i+1]?).isSome then consumeString src q fuel (i + 2)
      else consumeString src q fuel (i + 1)

/-- Modelled from the spec: scan an unquoted `url(...)` body; returns the
index of the closing `)` (respecting `\` escapes), or EOF for an unclosed
url-token. -/
def consumeUrlRaw (src : List Char) : Nat → Nat → Nat
  | 0, i => i
  | fuel+1, i =>
    match src[i]? with
    | none => i
    | some c =>
      if c = ')' then i
      else if c = '\\' && (src[i+1]?).isSome then consumeUrlRaw src fuel (i + 2)
      else consumeUrlRaw src fuel (i + 1)

/-- Modelled from the spec: trim the trailing whitespace of the url
content region `[cs, e)`, never going below `cs`. -/
def backTrimWs (src : List Char) (cs : Nat) : Nat → Nat
  | 0 => cs
  | e+1 =>
    if e < cs then cs
    else
      match src[e]? with
      | some c => if isWhiteSpace c then backTrimWs src cs e else e + 1
      | none => backTrimWs src cs e

/-- `consume_icss_export_prop` (dependencies.rs lines 286-299): advance
until `:`, `}`, `;` or the start of a comment; `none` models the pass
aborting on EOF (`cur()?` / `peek()?`). -/
def consumeIcssExportProp (src : List Char) : Nat → Nat → Option Nat
  | 0, _ => none
  | fuel+1, i =>
    match src[i]? with
    | none => none
    | some c =>
      if c = ':' || c = '\x7d' || c = ';' then some i
      else if c = '/' then
        match src[i+1]? with
        | none => none
        | some c2 =>
          if c2 = '*' then some i else consumeIcssExportProp src fuel (i + 1)
      else consumeIcssExportProp src fuel (i + 1)

/-- `consume_icss_export_value` (dependencies.rs lines 301-310): advance
until `}` or `;`. -/
def consumeIcssExportValue (src : List Char) : Nat → Nat → Option Nat
  | 0, _ => none
  | fuel+1, i =>
    match src[i]? with
    | none => none
    | some c =>
      if c = '\x7d' || c = ';' then some i
      else consumeIcssExportValue src fuel (i + 1)

/-- `get_media` (dependencies.rs lines 278-284): the slice between the
last qualifier and the semicolon is returned untrimmed; the inner lexer
only `consume`s one char and skips whitespace to validate, so the call
fails (returns `none`) exactly when the slice is empty. -/
def get_media (src : List Char) (start stop : Nat) : Option (List Char) :=
  let media := slice src start stop
  if media = [] then none else some media

/-- The `while lexer.cur()? != C_RIGHT_CURLY` loop of `lex_icss_export`
(dependencies.rs lines 325-356).  `bound` is the helper fuel, `fuel`
bounds the loop. -/
def icssExportLoop (src : List Char) (bound : Nat) :
    Nat → LexDependencies → Nat → LexDependencies × Option Nat
  | 0, st, _ => (st, none)
  | fuel+1, st, i =>
    match src[i]? with
    | none => (st, none)
    | some c =>
      if c = '\x7d' then (st, some (i + 1))
      else
        let prop_start := consumeWsComments src bound i
        match consumeIcssExportProp src bound prop_start with
        | none => (st, none)
        | some prop_end =>
          let j := consumeWsComments src bound prop_end
          match src[j]? with
          | none => (st, none)
          | some c2 =>
            if c2 ≠ ':' then
              ({ st with warnings := st.warnings ++
                  [Warning.Unexpected { start := j, stop := j + 1 }
                    { start := prop_start, stop := j + 1 }] },
               some j)
            else
              let value_start := consumeWsComments src bound (j + 1)
              match consumeIcssExportValue src bound value_start with
              | none => (st, none)
              | some value_end =>
                let k :=
                  if src[value_end]? = some ';' then
                    consumeWsComments src bound (value_end + 1)
                  else value_end
                let st := { st with dependencies := st.dependencies ++
                    [Dependency.ICSSExport (trimEndWs (slice src prop_start prop_end))
                      (trimEndWs (slice src value_start value_end))] }
                icssExportLoop src bound fuel st k

/-- `lex_icss_export` (dependencies.rs lines 312-359); `start` is the
`:export` token start, `pos` the lexer position after it.  Returns the
updated state and the lexer position, `none` when the pass aborts. -/
def lexIcssExport (src : List Char) (st : LexDependencies) (start pos : Nat) :
    LexDependencies × Option Nat :=
  let bound := src.length + 1
  let i := consumeWsComments src bound pos
  match src[i]? with
  | none => (st, none)
  | some c =>
    if c ≠ '\x7b' then
      ({ st with warnings := st.warnings ++
          [Warning.Unexpected { start := i, stop := i + 1 }
            { start := start, stop := i + 1 }] },
       some i)
    else
      icssExportLoop src bound bound st (consumeWsComments src bound (i + 1))

/-- `lex_local_var` (dependencies.rs lines 361-389); `start` is the
`var(` token start, `pos` the lexer position after the `(`. -/
def lexLocalVar (src : List Char) (st : LexDependencies) (start pos : Nat) :
    LexDependencies × Option Nat :=
  let bound := src.length + 1
  let minus_start := consumeWsComments src bound pos
  let hyphens : Option Bool :=
    match src[minus_start]?, src[minus_start + 1]? with
    | some c, some c2 => some (c = '-' && c2 = '-')
    | some c, none => if c = '-' then none else some false
    | none, _ => none
  match hyphens with
  | none => (st, none)
  | some false =>
    ({ st with warnings := st.warnings ++
        [Warning.Unexpected { start := minus_start, stop := minus_start + 2 }
          { start := start, stop := minus_start + 2 }] },
     some minus_start)
  | some true =>
    let e := consumeIdent src bound minus_start
    let name_start := minus_start + 2
    let j := consumeWsComments src bound e
    match src[j]? with
    | none => (st, none)
    | some c3 =>
      if c3 ≠ ')' then
        ({ st with warnings := st.warnings ++
            [Warning.Unexpected { start := j, stop := j + 1 }
              { start := name_start, stop := j + 1 }] },
         some j)
      else
        ({ st with dependencies := st.dependencies ++
            [Dependency.LocalVar (slice src name_start e)
              { start := minus_start, stop := e }] },
         some j)

/-- `lex_local_var_decl` (dependencies.rs lines 391-422); `start`/`stop`
are the `--name` ident token range, `pos` the lexer position after it. -/
def lexLocalVarDecl (src : List Char) (st : LexDependencies) (name : List Char)
    (start stop pos : Nat) : LexDependencies × Option Nat :=
  let bound := src.length + 1
  let i := consumeWsComments src bound pos
  match src[i]? with
  | none => (st, none)
  | some c =>
    if c ≠ ':' then
      ({ st with warnings := st.warnings ++
          [Warning.Unexpected { start := i, stop := i + 1 }
            { start := start, stop := i + 1 }] },
       some i)
    else
      let value_start := consumeWsComments src bound (i + 1)
      match consumeIcssExportValue src bound value_start with
      | none => (st, none)
      | some value_end =>
        let k :=
          if src[value_end]? = some ';' then consumeWsComments src bound (value_end + 1)
          else value_end
        ({ st with dependencies := st.dependencies ++
            [Dependency.LocalVarDecl { start := start, stop := stop } name
              (slice src value_start value_end)] },
         some k)

/-- Visitor `url` (dependencies.rs lines 430-461). -/
def urlVisitor (src : List Char) (st : LexDependencies)
    (start stop content_start content_end : Nat) : LexDependencies :=
  let value := slice src content_start content_end
  match st.scope with
  | Scope.InAtImport d =>
    if d.in_supports then st
    else if d.url.isSome then
      { st with warnings := st.warnings ++
          [Warning.DuplicateUrl { start := d.start, stop := stop }] }
    else
      let d' := { d with url := some value, url_range := some { start := start, stop := stop } }
      { st with scope := Scope.InAtImport d' }
  | Scope.InBlock =>
    { st with dependencies := st.dependencies ++
        [Dependency.Url value { start := start, stop := stop } UrlRangeKind.Function] }
  | _ => st

/-- Visitor `string` (dependencies.rs lines 463-509).  `balanced.last()`
is the head of the modelled stack. -/
def stringVisitor (src : List Char) (st : LexDependencies) (start stop : Nat) :
    LexDependencies :=
  match st.scope with
  | Scope.InAtImport d =>
    let inside_url :=
      match st.balanced.head? with
      | some last => last.kind = BalancedItemKind.Url
      | none => false
    -- Do not parse URLs in `supports(...)` and other strings if we already have a URL
    if d.in_supports || (!inside_url && d.url.isSome) then st
    else if inside_url && d.url.isSome then
      { st with warnings := st.warnings ++
          [Warning.DuplicateUrl { start := d.start, stop := stop }] }
    else
      let value := slice src (start + 1) (stop - 1)
      -- For url("inside_url") url_range will determined in right_parenthesis
      let r' := if inside_url then d.url_range else some { start := start, stop := stop }
      let d' := { d with url := some value, url_range := r' }
      { st with scope := Scope.InAtImport d' }
  | Scope.InBlock =>
    match st.balanced.head? with
    | none => st
    | some last =>
      match last.kind with
      | BalancedItemKind.Url =>
        { st with dependencies := st.dependencies ++
            [Dependency.Url (slice src (start + 1) (stop - 1))
              { start := start, stop := stop } UrlRangeKind.String] }
      | BalancedItemKind.ImageSet =>
        { st with dependencies := st.dependencies ++
            [Dependency.Url (slice src (start + 1) (stop - 1))
              { start := start, stop := stop } UrlRangeKind.Function] }
      | _ => st
  | _ => st

/-- Visitor `at_keyword` (dependencies.rs lines 511-538). -/
def atKeywordVisitor (src : List Char) (st : LexDependencies) (start stop : Nat) :
    LexDependencies :=
  let name := toLowerAscii (slice src start stop)
  if name = "@namespace".toList then
    { st with scope := Scope.AtNamespaceInvalid,
              warnings := st.warnings ++
                [Warning.NamespaceNotSupportedInBundledCss { start := start, stop := stop }] }
  else if name = "@import".toList then
    if !st.allow_import_at_rule then
      { st with scope := Scope.AtImportInvalid,
                warnings := st.warnings ++
                  [Warning.NotPrecededAtImport { start := start, stop := stop }] }
    else
      { st with scope := Scope.InAtImport (ImportData.new start) }
  else if name = "@media".toList || name = "@supports".toList ||
      name = "@layer".toList || name = "@container".toList then
    { st with is_next_rule_prelude := true }
  else st

/-- `import_data.supports_range().or_else(layer_range).unwrap_or(url_range).end`
(dependencies.rs lines 607-611): end of the last qualifier before the
media text. -/
def lastQualifierEnd (d : ImportData) (url_range : Range) : Nat :=
  match d.supports_range.orElse (fun _ => d.layer_range) with
  | some r => r.stop
  | none => url_range.stop

/-- Last stage of the `@import` assembly (dependencies.rs lines 607-620):
compute `media` from the end of the last qualifier and emit the Import. -/
def semicolonEmit (src : List Char) (st : LexDependencies) (d : ImportData)
    (start stop : Nat) (url : List Char) (url_range : Range)
    (layer supports : Option (List Char)) : LexDependencies :=
  let media := get_media src (lastQualifierEnd d url_range) start
  let imp := Dependency.Import url { start := d.start, stop := stop } layer supports media
  { st with dependencies := st.dependencies ++ [imp], scope := Scope.TopLevel }

/-- Layer/supports ordering check of the `@import` assembly
(dependencies.rs lines 595-606). -/
def semicolonOrderCheck (src : List Char) (st : LexDependencies) (d : ImportData)
    (start stop : Nat) (url : List Char) (url_range : Range)
    (layer supports : Option (List Char)) : LexDependencies :=
  match d.layer_range, d.supports_range with
  | some layer_range, some supports_range =>
    if layer_range.start > supports_range.start then
      let w := Warning.ExpectedBefore supports_range layer_range
      { st with warnings := st.warnings ++ [w], scope := Scope.TopLevel }
    else semicolonEmit src st d start stop url url_range layer supports
  | _, _ => semicolonEmit src st d start stop url url_range layer supports

/-- Supports resolution of the `@import` assembly (dependencies.rs lines
572-594): a still-open `supports(` warns `Unexpected` but continues with
`supports = None`; an `EndSupports` that starts before the url bails with
`ExpectedBefore`. -/
def semicolonResolveSupports (src : List Char) (st : LexDependencies) (d : ImportData)
    (start stop : Nat) (url : List Char) (url_range : Range)
    (layer : Option (List Char)) : LexDependencies :=
  match d.supports with
  | ImportDataSupports.None =>
    semicolonOrderCheck src st d start stop url url_range layer none
  | ImportDataSupports.InSupports supports_start =>
    semicolonOrderCheck src
      { st with warnings := st.warnings ++
          [Warning.Unexpected { start := start, stop := stop }
            { start := supports_start, stop := stop }] }
      d start stop url url_range layer none
  | ImportDataSupports.EndSupports value range =>
    if url_range.start > range.start then
      let w := Warning.ExpectedBefore range url_range
      { st with warnings := st.warnings ++ [w], scope := Scope.TopLevel }
    else semicolonOrderCheck src st d start stop url url_range layer (some value)

/-- Visitor `semicolon` (dependencies.rs lines 540-631). -/
def semicolonVisitor (src : List Char) (st : LexDependencies) (start stop : Nat) :
    LexDependencies :=
  match st.scope with
  | Scope.InAtImport d =>
    match d.url with
    | none =>
      let w := Warning.ExpectedUrl { start := d.start, stop := stop }
      { st with warnings := st.warnings ++ [w], scope := Scope.TopLevel }
    | some url =>
      match d.url_range with
      | none =>
        let w := Warning.Unexpected { start := start, stop := stop } { start := d.start, stop := stop }
        { st with warnings := st.warnings ++ [w], scope := Scope.TopLevel }
      | some url_range =>
        match d.layer with
        | ImportDataLayer.None =>
          semicolonResolveSupports src st d start stop url url_range none
        | ImportDataLayer.EndLayer value range =>
          if url_range.start > range.start then
            let w := Warning.ExpectedBefore range url_range
            { st with warnings := st.warnings ++ [w], scope := Scope.TopLevel }
          else
            semicolonResolveSupports src st d start stop url url_range (some value)
  | Scope.AtImportInvalid => { st with scope := Scope.TopLevel }
  | Scope.AtNamespaceInvalid => { st with scope := Scope.TopLevel }
  | _ => st

/-- First half of visitor `function` (dependencies.rs lines 633-641):
push the balanced item and mark an `@import supports(` as open. -/
def functionVisitorCore (src : List Char) (st : LexDependencies) (start stop : Nat) :
    LexDependencies :=
  let name := toLowerAscii (slice src start (stop - 1))
  let st := { st with balanced := BalancedItem.new name start stop :: st.balanced }
  match st.scope with
  | Scope.InAtImport d =>
    if name = "supports".toList then
      let d' := { d with supports := ImportDataSupports.InSupports start }
      { st with scope := Scope.InAtImport d' }
    else st
  | _ => st

/-- Visitor `function` (dependencies.rs lines 633-650); `stop` is one past
the `(`.  May consume further input through `lex_local_var` when a `var(`
is seen in local mode. -/
def functionVisitor (src : List Char) (st : LexDependencies) (start stop : Nat) :
    LexDependencies × Option Nat :=
  let name := toLowerAscii (slice src start (stop - 1))
  let st := functionVisitorCore src st start stop
  match st.mode_data with
  | none => (st, some stop)
  | some md =>
    if md.is_local_mode && name = "var".toList then lexLocalVar src st start stop
    else (st, some stop)

/-- Visitor `left_parenthesis` (dependencies.rs lines 652-655). -/
def leftParenthesisVisitor (st : LexDependencies) (start stop : Nat) : LexDependencies :=
  { st with balanced := BalancedItem.new_other start stop :: st.balanced }

/-- `InAtImport` part of `right_parenthesis` (dependencies.rs lines
682-697), applied after the popped item `last` is known. -/
def rightParenImport (src : List Char) (st : LexDependencies) (last : BalancedItem)
    (stop : Nat) : LexDependencies :=
  match st.scope with
  | Scope.InAtImport d =>
    let not_in_supports := !d.in_supports
    if last.kind = BalancedItemKind.Url && not_in_supports then
      let d' := { d with url_range := some { start := last.range.start, stop := stop } }
      { st with scope := Scope.InAtImport d' }
    else if last.kind = BalancedItemKind.Layer && not_in_supports then
      let v := slice src last.range.stop (stop - 1)
      let d' := { d with layer := ImportDataLayer.EndLayer v { start := last.range.start, stop := stop } }
      { st with scope := Scope.InAtImport d' }
    else if last.kind = BalancedItemKind.Supports then
      let v := slice src last.range.stop (stop - 1)
      let d' := { d with supports := ImportDataSupports.EndSupports v { start := last.range.start, stop := stop } }
      { st with scope := Scope.InAtImport d' }
    else st
  | _ => st

/-- Visitor `right_parenthesis` (dependencies.rs lines 657-699): pop the
balanced stack (a stray `)` on an empty stack is a no-op), handle
`:local(`/`:global(` closings, then the `@import` qualifier endings. -/
def rightParenthesisVisitor (src : List Char) (st : LexDependencies) (start stop : Nat) :
    LexDependencies :=
  match st.balanced with
  | [] => st
  | last :: rest =>
    let st1 := { st with balanced := rest }
    match st1.mode_data with
    | some md =>
      if last.kind = BalancedItemKind.Local || last.kind = BalancedItemKind.Global then
        let md' :=
          match rest.head? with
          | some l2 =>
            if l2.kind = BalancedItemKind.Local then md.set_local
            else if l2.kind = BalancedItemKind.Global then md.set_global
            else md.set_none
          | none => md.set_none
        { st1 with mode_data := some md',
                   dependencies := st1.dependencies ++
                     [Dependency.Replace [] { start := start, stop := stop }] }
      else rightParenImport src st1 last stop
    | none => rightParenImport src st1 last stop

/-- Visitor `ident` (dependencies.rs lines 701-724).  May consume further
input through `lex_local_var_decl`. -/
def identVisitor (src : List Char) (st : LexDependencies) (start stop : Nat) :
    LexDependencies × Option Nat :=
  match st.scope with
  | Scope.InBlock =>
    match st.mode_data with
    | none => (st, some stop)
    | some md =>
      if md.is_local_mode then
        let ident := slice src start stop
        if ident.take 2 = ['-', '-'] then
          lexLocalVarDecl src st (ident.drop 2) start stop stop
        else (st, some stop)
      else (st, some stop)
  | Scope.InAtImport d =>
    if toLowerAscii (slice src start stop) = "layer".toList then
      let d' := { d with layer := ImportDataLayer.EndLayer [] { start := start, stop := stop } }
      ({ st with scope := Scope.InAtImport d' }, some stop)
    else (st, some stop)
  | _ => (st, some stop)

/-- Visitor `class` (dependencies.rs lines 726-739). -/
def classVisitor (src : List Char) (st : LexDependencies) (start stop : Nat) :
    LexDependencies :=
  match st.mode_data with
  | none => st
  | some md =>
    if md.is_local_mode then
      { st with dependencies := st.dependencies ++
          [Dependency.LocalIdent (slice src (start + 1) stop)
            { start := start + 1, stop := stop }] }
    else st

/-- Visitor `id` (dependencies.rs lines 741-754). -/
def idVisitor (src : List Char) (st : LexDependencies) (start stop : Nat) :
    LexDependencies :=
  match st.mode_data with
  | none => st
  | some md =>
    if md.is_local_mode then
      { st with dependencies := st.dependencies ++
          [Dependency.LocalIdent (slice src (start + 1) stop)
            { start := start + 1, stop := stop }] }
    else st

/-- Visitor `left_curly_bracket` (dependencies.rs lines 756-775). -/
def leftCurlyBracketVisitor (st : LexDependencies) : LexDependencies :=
  match st.scope with
  | Scope.TopLevel =>
    { st with allow_import_at_rule := false,
              scope := Scope.InBlock,
              block_nesting_level := 1 }
  | Scope.InBlock =>
    { st with block_nesting_level := st.block_nesting_level + 1 }
  | _ => st

/-- Visitor `right_curly_bracket` (dependencies.rs lines 777-792).  Rust
decrements a `u32`; here the decrement is `Nat` truncated subtraction,
and the c10 theorems show the reachable-state invariant
`InBlock → 1 ≤ block_nesting_level` keeps it exact. -/
def rightCurlyBracketVisitor (st : LexDependencies) : LexDependencies :=
  match st.scope with
  | Scope.InBlock =>
    let lvl := st.block_nesting_level - 1
    if lvl = 0 then { st with block_nesting_level := lvl, scope := Scope.TopLevel }
    else { st with block_nesting_level := lvl }
  | _ => st

/-- Visitor `pseudo_function` (dependencies.rs lines 794-813). -/
def pseudoFunctionVisitor (src : List Char) (st : LexDependencies) (start stop : Nat) :
    LexDependencies :=
  let name := toLowerAscii (slice src start (stop - 1))
  let st := { st with balanced := BalancedItem.new name start stop :: st.balanced }
  match st.mode_data with
  | none => st
  | some md =>
    if name = ":global".toList then
      { st with mode_data := some md.set_global,
                dependencies := st.dependencies ++
                  [Dependency.Replace [] { start := start, stop := stop }] }
    else if name = ":local".toList then
      { st with mode_data := some md.set_local,
                dependencies := st.dependencies ++
                  [Dependency.Replace [] { start := start, stop := stop }] }
    else st

/-- Visitor `pseudo_class` (dependencies.rs lines 815-843).  May consume
further input (whitespace after `:global`/`:local`, or a whole `:export`
block). -/
def pseudoClassVisitor (src : List Char) (st : LexDependencies) (start stop : Nat) :
    LexDependencies × Option Nat :=
  match st.mode_data with
  | none => (st, some stop)
  | some md =>
    let name := toLowerAscii (slice src start stop)
    if name = ":global".toList || name = ":local".toList then
      let end2 := consumeWsComments src (src.length + 1) stop
      let comments := trimWs (slice src stop end2)
      let st := { st with dependencies := st.dependencies ++
          [Dependency.Replace comments { start := start, stop := end2 }] }
      let st :=
        if name = ":global".toList then { st with mode_data := some md.set_global }
        else { st with mode_data := some md.set_local }
      (st, some end2)
    else if st.scope = Scope.TopLevel && name = ":export".toList then
      match lexIcssExport src st start stop with
      | (st1, none) => (st1, none)
      | (st1, some p) =>
        ({ st1 with dependencies := st1.dependencies ++
            [Dependency.Replace [] { start := start, stop := p }] },
         some p)
    else (st, some stop)

/-- Visitor `comma` (dependencies.rs lines 845-850). -/
def commaVisitor (st : LexDependencies) : LexDependencies :=
  match st.mode_data with
  | some md => { st with mode_data := some md.set_none }
  | none => st

/-- Modelled from the spec: the token recognized at a position, as data.
`classify` performs the token recognition of `Lexer::lex` (spec section
4.1); `dispatch` routes it to the visitor embedded from
`dependencies.rs`. -/
inductive TokenAction
  | eof
  | skip (next : Nat)
  | stringTok (start stop : Nat)
  | atKeywordTok (start stop : Nat)
  | pseudoFunctionTok (start stop : Nat)
  | pseudoClassTok (start stop : Nat)
  | classTok (start stop : Nat)
  | idTok (start stop : Nat)
  | functionTok (start stop : Nat)
  | urlTok (start stop content_start content_end : Nat)
  | identTok (start stop : Nat)
  | leftParenTok (start stop : Nat)
  | rightParenTok (start stop : Nat)
  | commaTok (next : Nat)
  | semicolonTok (start stop : Nat)
  | leftCurlyTok (next : Nat)
  | rightCurlyTok (next : Nat)
deriving DecidableEq, Repr

/-- Modelled from the spec: recognize the token starting at `i` (spec
section 4.1).  Whitespace and comments are skipped without an event; a
quoted `url(` dispatches as function + string + right_parenthesis; an
unquoted `url(...)` yields a single url token with whitespace-trimmed
content; unknown characters are skipped. -/
def classify (src : List Char) (i : Nat) : TokenAction :=
  match src[i]? with
  | none => TokenAction.eof
  | some c =>
    if isWhiteSpace c then TokenAction.skip (i + 1)
    else if c = '/' && src[i+1]? = some '*' then
      TokenAction.skip (skipComment src (src.length + 1) (i + 2))
    else if c = '"' || c = '\x27' then
      TokenAction.stringTok i (consumeString src c (src.length + 1) (i + 1))
    else if c = '@' && wouldStartIdent src (i + 1) then
      TokenAction.atKeywordTok i (consumeIdent src (src.length + 1) (i + 1))
    else if c = ':' && wouldStartIdent src (i + 1) then
      let e := consumeIdent src (src.length + 1) (i + 1)
      if src[e]? = some '(' then TokenAction.pseudoFunctionTok i (e + 1)
      else TokenAction.pseudoClassTok i e
    else if c = '.' && wouldStartIdent src (i + 1) then
      TokenAction.classTok i (consumeIdent src (src.length + 1) (i + 1))
    else if c = '#' && wouldStartIdent src (i + 1) then
      TokenAction.idTok i (consumeIdent src (src.length + 1) (i + 1))
    else if wouldStartIdent src i then
      let e := consumeIdent src (src.length + 1) i
      if src[e]? = some '(' then
        if toLowerAscii (slice src i e) = "url".toList then
          let j := consumeWsComments src (src.length + 1) (e + 1)
          match src[j]? with
          | some q =>
            if q = '"' || q = '\x27' then TokenAction.functionTok i (e + 1)
            else
              let rawEnd := consumeUrlRaw src (src.length + 1) j
              let tokEnd := if rawEnd < src.length then rawEnd + 1 else src.length
              TokenAction.urlTok i tokEnd j (backTrimWs src j rawEnd)
          | none => TokenAction.urlTok i src.length j (backTrimWs src j src.length)
        else TokenAction.functionTok i (e + 1)
      else TokenAction.identTok i e
    else if c = '(' then TokenAction.leftParenTok i (i + 1)
    else if c = ')' then TokenAction.rightParenTok i (i + 1)
    else if c = ',' then TokenAction.commaTok (i + 1)
    else if c = ';' then TokenAction.semicolonTok i (i + 1)
    else if c = '\x7b' then TokenAction.leftCurlyTok (i + 1)
    else if c = '\x7d' then TokenAction.rightCurlyTok (i + 1)
    else TokenAction.skip (i + 1)

/-- Dispatch a recognized token to the visitor functions embedded from
`dependencies.rs`.  Returns the updated state and the next position;
`none` ends (EOF) or aborts the pass. -/
def dispatch (src : List Char) (st : LexDependencies) : TokenAction → LexDependencies × Option Nat
  | TokenAction.eof => (st, none)
  | TokenAction.skip n => (st, some n)
  | TokenAction.stringTok s e => (stringVisitor src st s e, some e)
  | TokenAction.atKeywordTok s e => (atKeywordVisitor src st s e, some e)
  | TokenAction.pseudoFunctionTok s e => (pseudoFunctionVisitor src st s e, some (e))
  | TokenAction.pseudoClassTok s e => pseudoClassVisitor src st s e
  | TokenAction.classTok s e => (classVisitor src st s e, some e)
  | TokenAction.idTok s e => (idVisitor src st s e, some e)
  | TokenAction.functionTok s e => functionVisitor src st s e
  | TokenAction.urlTok s e cs ce => (urlVisitor src st s e cs ce, some e)
  | TokenAction.identTok s e => identVisitor src st s e
  | TokenAction.leftParenTok s e => (leftParenthesisVisitor st s e, some e)
  | TokenAction.rightParenTok s e => (rightParenthesisVisitor src st s e, some e)
  | TokenAction.commaTok n => (commaVisitor st, some n)
  | TokenAction.semicolonTok s e => (semicolonVisitor src st s e, some e)
  | TokenAction.leftCurlyTok n => (leftCurlyBracketVisitor st, some n)
  | TokenAction.rightCurlyTok n => (rightCurlyBracketVisitor st, some n)

/-- One step of the tokenizer loop: recognize the token at `i` and
dispatch it. -/
def step (src : List Char) (st : LexDependencies) (i : Nat) : LexDependencies × Option Nat :=
  dispatch src st (classify src i)

/-- The tokenizer driving loop, fuel-indexed.  Every step advances the
position, so `src.length + 1` fuel reaches EOF. -/
def lexLoop (src : List Char) : Nat → LexDependencies → Nat → LexDependencies
  | 0, st, _ => st
  | fuel+1, st, i =>
    match step src st i with
    | (st', none) => st'
    | (st', some j) => lexLoop src fuel st' j

/-- Run the analyzer over a source string, as `lexer.lex(&mut visitor)`
with a fresh `LexDependencies` and `Collector` sinks. -/
def analyze (mode_data : Option CssModulesModeData) (s : String) : LexDependencies :=
  let src := s.toList
  lexLoop src (src.length + 1) (LexDependencies.new mode_data) 0

/-- Whether a dependency record is a `Dependency::Import`. -/
def isImportDep : Dependency → Bool
  | Dependency.Import _ _ _ _ _ => true
  | _ => false

/-- Number of `Dependency::Import` records in an emission list. -/
def importCount (l : List Dependency) : Nat :=
  (l.filter isImportDep).length

/-- The `default` locality mode of a state, when CSS modules are enabled. -/
def defaultMode (st : LexDependencies) : Option CssModulesMode :=
  st.mode_data.map CssModulesModeData.default

/-- Frame facts shared by every visitor call except `semicolon` (which can
emit an Import), `at_keyword` (which can open a fresh `InAtImport`) and
the curly-bracket handlers (which move the block nesting level): the
dependency list only grows by non-Import records, the nesting level is
untouched, `InBlock` and `InAtImport` scopes are not created (and an
`InAtImport` keeps its `start`), and the default locality mode is
untouched. -/
def Frame (st st' : LexDependencies) : Prop :=
  (∃ ds, st'.dependencies = st.dependencies ++ ds ∧ ∀ x ∈ ds, isImportDep x = false) ∧
  st'.block_nesting_level = st.block_nesting_level ∧
  (st'.scope = Scope.InBlock → st.scope = Scope.InBlock) ∧
  defaultMode st' = defaultMode st ∧
  (∀ d', st'.scope = Scope.InAtImport d' →
    ∃ d, st.scope = Scope.InAtImport d ∧ d'.start = d.start)

/-- Concrete instance for `c7_in_supports_ignores_urls`. -/
def exampleSupportsImportData : ImportData :=
  { start := 0, url := none, url_range := none
    supports := ImportDataSupports.InSupports 8, layer := ImportDataLayer.None }

/-- A state inside `@import ... supports(` used to instantiate `c7`. -/
def exampleSupportsState : LexDependencies :=
  { LexDependencies.new none with scope := Scope.InAtImport exampleSupportsImportData }

/-- Concrete `@import` state whose layer qualifier precedes the url, used
to instantiate `c4_layer_before_url`. -/
def exampleLayerFirstImportData : ImportData :=
  { start := 0, url := some "a".toList, url_range := some { start := 10, stop := 15 }
    supports := ImportDataSupports.None
    layer := ImportDataLayer.EndLayer [] { start := 2, stop := 7 } }

/-- A state inside `@import layer(...) url(...)` used to instantiate
`c4_layer_before_url`. -/
def exampleLayerFirstState : LexDependencies :=
  { LexDependencies.new none with scope := Scope.InAtImport exampleLayerFirstImportData }

/-- The accumulated `@import url(./b.css) print;` state as it stands just
before its semicolon, used to instantiate `c5_media_untrimmed`. -/
def exampleMediaImportData : ImportData :=
  { start := 0, url := some "./b.css".toList, url_range := some { start := 8, stop := 20 }
    supports := ImportDataSupports.None, layer := ImportDataLayer.None }

/-- State wrapper for `exampleMediaImportData`. -/
def exampleMediaState : LexDependencies :=
  { LexDependencies.new none with scope := Scope.InAtImport exampleMediaImportData }

/-- A freshly opened `@import` (no url yet) used to instantiate `c3`. -/
def exampleImportReadyState : LexDependencies :=
  { LexDependencies.new none with scope := Scope.InAtImport (ImportData.new 0) }

/-- Invariant for claim C6: any open `@import` starts at a (lowercased)
`@import` keyword, and every Import emitted so far ends just past a `;`
and starts at a (lowercased) `@import` keyword. -/
def importRangeInv (src : List Char) (st : LexDependencies) : Prop :=
  (∀ d, st.scope = Scope.InAtImport d →
    toLowerAscii (slice src d.start (d.start + 7)) = "@import".toList) ∧
  (∀ req rng lay sup med, Dependency.Import req rng lay sup med ∈ st.dependencies →
    src[rng.stop - 1]? = some ';' ∧
    toLowerAscii (slice src rng.start (rng.start + 7)) = "@import".toList)

theorem Frame.refl (st : LexDependencies) : Frame st st :=
  ⟨⟨[], by simp, by simp⟩, Eq.refl _, id, Eq.refl _, fun d' h => ⟨d', h, Eq.refl _⟩⟩

theorem Frame.trans {st₁ st₂ st₃ : LexDependencies}
    (h₁ : Frame st₁ st₂) (h₂ : Frame st₂ st₃) : Frame st₁ st₃ := by
  obtain ⟨⟨ds₁, hd₁, hf₁⟩, hb₁, hs₁, hm₁, hi₁⟩ := h₁
  obtain ⟨⟨ds₂, hd₂, hf₂⟩, hb₂, hs₂, hm₂, hi₂⟩ := h₂
  refine ⟨⟨ds₁ ++ ds₂, ?_, ?_⟩, hb₂.trans hb₁, fun h => hs₁ (hs₂ h), hm₂.trans hm₁, ?_⟩
  · rw [hd₂, hd₁, List.append_assoc]
  · intro x hx
    rcases List.mem_append.mp hx with h | h
    · exact hf₁ x h
    · exact hf₂ x h
  · intro d' h
    obtain ⟨d₂, hd₂', he₂⟩ := hi₂ d' h
    obtain ⟨d₁, hd₁', he₁⟩ := hi₁ d₂ hd₂'
    exact ⟨d₁, hd₁', he₂.trans he₁⟩

/-- Appending warnings only is a framed step. -/
theorem Frame.warn (st : LexDependencies) (ws : List Warning) :
    Frame st { st with warnings := st.warnings ++ ws } :=
  ⟨⟨[], by simp, by simp⟩, Eq.refl _, id, Eq.refl _, fun d' h => ⟨d', h, Eq.refl _⟩⟩

/-- Appending import-free dependencies only is a framed step. -/
theorem Frame.dep (st : LexDependencies) (ds : List Dependency)
    (hf : ∀ x ∈ ds, isImportDep x = false) :
    Frame st { st with dependencies := st.dependencies ++ ds } :=
  ⟨⟨ds, Eq.refl _, hf⟩, Eq.refl _, id, Eq.refl _, fun d' h => ⟨d', h, Eq.refl _⟩⟩

/-- Updating the fields of an already-open `InAtImport` (keeping its
`start`) is a framed step. -/
theorem Frame.scopeImport (st : LexDependencies) (d d' : ImportData)
    (heq : st.scope = Scope.InAtImport d) (hstart : d'.start = d.start) :
    Frame st { st with scope := Scope.InAtImport d' } := by
  refine ⟨⟨[], by simp, by simp⟩, Eq.refl _, ?_, Eq.refl _, ?_⟩
  · intro h; exact absurd h (by simp)
  · intro d'' h
    simp only [Scope.InAtImport.injEq] at h
    exact ⟨d, heq, h ▸ hstart⟩

theorem frame_urlVisitor (src : List Char) (st : LexDependencies)
    (start stop cs ce : Nat) : Frame st (urlVisitor src st start stop cs ce) := by
  unfold urlVisitor
  split
  case h_1 d heq =>
    split
    · exact Frame.refl st
    · split
      · exact Frame.warn st _
      · exact Frame.scopeImport st d _ heq (Eq.refl _)
  case h_2 heq =>
    exact Frame.dep st _ (by simp [isImportDep])
  case h_3 =>
    exact Frame.refl st

theorem Frame.mk (st st' : LexDependencies) (ds : List Dependency)
    (hdeps : st'.dependencies = st.dependencies ++ ds)
    (hf : ∀ x ∈ ds, isImportDep x = false)
    (hb : st'.block_nesting_level = st.block_nesting_level)
    (hs : st'.scope = Scope.InBlock → st.scope = Scope.InBlock)
    (hm : defaultMode st' = defaultMode st)
    (hi : ∀ d', st'.scope = Scope.InAtImport d' →
      ∃ d, st.scope = Scope.InAtImport d ∧ d'.start = d.start) :
    Frame st st' :=
  ⟨⟨ds, hdeps, hf⟩, hb, hs, hm, hi⟩

theorem frame_stringVisitor (src : List Char) (st : LexDependencies)
    (start stop : Nat) : Frame st (stringVisitor src st start stop) := by
  unfold stringVisitor
  split
  case h_1 d heq =>
    split
    all_goals
      dsimp only
      split
      · exact Frame.refl st
      · split
        · exact Frame.warn st _
        · exact Frame.scopeImport st d _ heq (Eq.refl _)
  case h_2 heq =>
    split
    · exact Frame.refl st
    · split
      · exact Frame.dep st _ (by simp [isImportDep])
      · exact Frame.dep st _ (by simp [isImportDep])
      · exact Frame.refl st
  case h_3 =>
    exact Frame.refl st

theorem frame_classVisitor (src : List Char) (st : LexDependencies)
    (start stop : Nat) : Frame st (classVisitor src st start stop) := by
  unfold classVisitor
  split
  · exact Frame.refl st
  · split
    · exact Frame.dep st _ (by simp [isImportDep])
    · exact Frame.refl st

theorem frame_idVisitor (src : List Char) (st : LexDependencies)
    (start stop : Nat) : Frame st (idVisitor src st start stop) := by
  unfold idVisitor
  split
  · exact Frame.refl st
  · split
    · exact Frame.dep st _ (by simp [isImportDep])
    · exact Frame.refl st

theorem frame_leftParenthesisVisitor (st : LexDependencies) (start stop : Nat) :
    Frame st (leftParenthesisVisitor st start stop) := by
  unfold leftParenthesisVisitor
  exact Frame.mk st _ [] (by simp) (by simp) (Eq.refl _) (fun h => h) (Eq.refl _)
    (fun d' h => ⟨d', h, Eq.refl _⟩)

theorem frame_commaVisitor (st : LexDependencies) : Frame st (commaVisitor st) := by
  unfold commaVisitor
  split
  case h_1 md heq =>
    exact Frame.mk st _ [] (by simp) (by simp) (Eq.refl _) (fun h => h)
      (by simp [defaultMode, heq, CssModulesModeData.set_none])
      (fun d' h => ⟨d', h, Eq.refl _⟩)
  case h_2 => exact Frame.refl st

theorem frame_pseudoFunctionVisitor (src : List Char) (st : LexDependencies)
    (start stop : Nat) : Frame st (pseudoFunctionVisitor src st start stop) := by
  unfold pseudoFunctionVisitor
  dsimp only
  split
  case h_2 md heq =>
    split
    · exact Frame.mk st _ [Dependency.Replace [] { start := start, stop := stop }]
        (by simp) (by simp [isImportDep]) (Eq.refl _) (fun h => h)
        (by simp [defaultMode] at heq ⊢; simp [heq, CssModulesModeData.set_global])
        (fun d' h => ⟨d', h, Eq.refl _⟩)
    · split
      · exact Frame.mk st _ [Dependency.Replace [] { start := start, stop := stop }]
          (by simp) (by simp [isImportDep]) (Eq.refl _) (fun h => h)
          (by simp [defaultMode] at heq ⊢; simp [heq, CssModulesModeData.set_local])
          (fun d' h => ⟨d', h, Eq.refl _⟩)
      · exact Frame.mk st _ [] (by simp) (by simp) (Eq.refl _) (fun h => h)
          (Eq.refl _) (fun d' h => ⟨d', h, Eq.refl _⟩)
  case h_1 =>
    exact Frame.mk st _ [] (by simp) (by simp) (Eq.refl _) (fun h => h)
      (Eq.refl _) (fun d' h => ⟨d', h, Eq.refl _⟩)

theorem frame_rightParenImport (src : List Char) (st : LexDependencies)
    (last : BalancedItem) (stop : Nat) : Frame st (rightParenImport src st last stop) := by
  unfold rightParenImport
  split
  case h_1 d heq =>
    dsimp only
    split
    · exact Frame.scopeImport st d _ heq (Eq.refl _)
    · split
      · exact Frame.scopeImport st d _ heq (Eq.refl _)
      · split
        · exact Frame.scopeImport st d _ heq (Eq.refl _)
        · exact Frame.refl st
  case h_2 =>
    exact Frame.refl st

theorem frame_rightParenthesisVisitor (src : List Char) (st : LexDependencies)
    (start stop : Nat) : Frame st (rightParenthesisVisitor src st start stop) := by
  unfold rightParenthesisVisitor
  split
  case h_1 => exact Frame.refl st
  case h_2 last rest heq =>
    dsimp only
    split
    case h_1 md hmd =>
      split
      · exact Frame.mk st _ [Dependency.Replace [] { start := start, stop := stop }]
          (by simp) (by simp [isImportDep]) (Eq.refl _) (fun h => h)
          (by
            simp only [defaultMode] at hmd ⊢
            cases h2 : rest.head? with
            | none => simp [hmd, CssModulesModeData.set_none]
            | some l2 =>
              by_cases hl : l2.kind = BalancedItemKind.Local
              · simp [h2, hl, hmd, CssModulesModeData.set_local]
              · by_cases hg : l2.kind = BalancedItemKind.Global
                · simp [h2, hl, hg, hmd, CssModulesModeData.set_global]
                · simp [h2, hl, hg, hmd, CssModulesModeData.set_none])
          (fun d' h => ⟨d', h, Eq.refl _⟩)
      · exact Frame.trans
          (Frame.mk st _ [] (by simp) (by simp) (Eq.refl _) (fun h => h) (Eq.refl _)
            (fun d' h => ⟨d', h, Eq.refl _⟩))
          (frame_rightParenImport src _ last stop)
    case h_2 =>
      exact Frame.trans
        (Frame.mk st _ [] (by simp) (by simp) (Eq.refl _) (fun h => h) (Eq.refl _)
          (fun d' h => ⟨d', h, Eq.refl _⟩))
        (frame_rightParenImport src _ last stop)

theorem frame_lexLocalVar (src : List Char) (st : LexDependencies) (start pos : Nat) :
    Frame st (lexLocalVar src st start pos).1 := by
  unfold lexLocalVar
  dsimp only
  split
  · exact Frame.refl st
  · exact Frame.warn st _
  · split
    · exact Frame.refl st
    · split
      · exact Frame.warn st _
      · exact Frame.dep st _ (by simp [isImportDep])

theorem frame_functionVisitorCore (src : List Char) (st : LexDependencies)
    (start stop : Nat) : Frame st (functionVisitorCore src st start stop) := by
  unfold functionVisitorCore
  dsimp only
  split
  case h_1 d heq =>
    split
    · exact Frame.trans
        (Frame.mk st _ [] (by simp) (by simp) (Eq.refl _) (fun h => h) (Eq.refl _)
          (fun d' h => ⟨d', h, Eq.refl _⟩))
        (Frame.scopeImport _ d _ heq (Eq.refl _))
    · exact Frame.mk st _ [] (by simp) (by simp) (Eq.refl _) (fun h => h) (Eq.refl _)
        (fun d' h => ⟨d', h, Eq.refl _⟩)
  case h_2 =>
    exact Frame.mk st _ [] (by simp) (by simp) (Eq.refl _) (fun h => h) (Eq.refl _)
      (fun d' h => ⟨d', h, Eq.refl _⟩)

theorem frame_functionVisitor (src : List Char) (st : LexDependencies)
    (start stop : Nat) : Frame st (functionVisitor src st start stop).1 := by
  unfold functionVisitor
  dsimp only
  split
  · exact frame_functionVisitorCore src st start stop
  · split
    · exact Frame.trans (frame_functionVisitorCore src st start stop)
        (frame_lexLocalVar src _ start stop)
    · exact frame_functionVisitorCore src st start stop

theorem frame_lexLocalVarDecl (src : List Char) (st : LexDependencies)
    (name : List Char) (start stop pos : Nat) :
    Frame st (lexLocalVarDecl src st name start stop pos).1 := by
  unfold lexLocalVarDecl
  dsimp only
  split
  · exact Frame.refl st
  · split
    · exact Frame.warn st _
    · split
      · exact Frame.refl st
      · exact Frame.dep st _ (by simp [isImportDep])

theorem frame_identVisitor (src : List Char) (st : LexDependencies)
    (start stop : Nat) : Frame st (identVisitor src st start stop).1 := by
  unfold identVisitor
  split
  case h_1 =>
    split
    · exact Frame.refl st
    · split
      · dsimp only
        split
        · exact frame_lexLocalVarDecl src st _ start stop stop
        · exact Frame.refl st
      · exact Frame.refl st
  case h_2 d heq =>
    split
    · exact Frame.scopeImport st d _ heq (Eq.refl _)
    · exact Frame.refl st
  case h_3 =>
    exact Frame.refl st

theorem frame_icssExportLoop (src : List Char) (bound : Nat) :
    ∀ fuel (st : LexDependencies) (i : Nat),
      Frame st (icssExportLoop src bound fuel st i).1 := by
  intro fuel
  induction fuel with
  | zero => intro st i; exact Frame.refl st
  | succ n ih =>
    intro st i
    unfold icssExportLoop
    split
    · exact Frame.refl st
    · split
      · exact Frame.refl st
      · dsimp only
        split
        · exact Frame.refl st
        · split
          · exact Frame.refl st
          · split
            · exact Frame.warn st _
            · split
              · exact Frame.refl st
              · exact Frame.trans (Frame.dep st _ (by simp [isImportDep])) (ih _ _)

theorem frame_lexIcssExport (src : List Char) (st : LexDependencies) (start pos : Nat) :
    Frame st (lexIcssExport src st start pos).1 := by
  unfold lexIcssExport
  dsimp only
  split
  · exact Frame.refl st
  · split
    · exact Frame.warn st _
    · exact frame_icssExportLoop src _ _ st _

theorem frame_pseudoClassVisitor (src : List Char) (st : LexDependencies)
    (start stop : Nat) : Frame st (pseudoClassVisitor src st start stop).1 := by
  unfold pseudoClassVisitor
  split
  case h_1 => exact Frame.refl st
  case h_2 md hmd =>
    dsimp only
    split
    · split
      · exact Frame.mk st _ [Dependency.Replace
            (trimWs (slice src stop (consumeWsComments src (src.length + 1) stop)))
            { start := start, stop := consumeWsComments src (src.length + 1) stop }]
          (by simp) (by simp [isImportDep]) (Eq.refl _) (fun h => h)
          (by simp only [defaultMode] at hmd ⊢; simp [hmd, CssModulesModeData.set_global])
          (fun d' h => ⟨d', h, Eq.refl _⟩)
      · exact Frame.mk st _ [Dependency.Replace
            (trimWs (slice src stop (consumeWsComments src (src.length + 1) stop)))
            { start := start, stop := consumeWsComments src (src.length + 1) stop }]
          (by simp) (by simp [isImportDep]) (Eq.refl _) (fun h => h)
          (by simp only [defaultMode] at hmd ⊢; simp [hmd, CssModulesModeData.set_local])
          (fun d' h => ⟨d', h, Eq.refl _⟩)
    · split
      · split
        case h_1 st1 heq =>
          have h1 : Frame st st1 := by
            have := frame_lexIcssExport src st start stop
            rw [heq] at this
            exact this
          exact h1
        case h_2 st1 p heq =>
          have h1 : Frame st st1 := by
            have := frame_lexIcssExport src st start stop
            rw [heq] at this
            exact this
          exact Frame.trans h1 (Frame.dep st1 _ (by simp [isImportDep]))
      · exact Frame.refl st

theorem atKeywordVisitor_facts (src : List Char) (st : LexDependencies) (start stop : Nat) :
    (atKeywordVisitor src st start stop).dependencies = st.dependencies ∧
    (atKeywordVisitor src st start stop).block_nesting_level = st.block_nesting_level ∧
    ((atKeywordVisitor src st start stop).scope = Scope.InBlock → st.scope = Scope.InBlock) ∧
    defaultMode (atKeywordVisitor src st start stop) = defaultMode st ∧
    (∀ d', (atKeywordVisitor src st start stop).scope = Scope.InAtImport d' →
      (∃ d, st.scope = Scope.InAtImport d ∧ d'.start = d.start) ∨
      (d'.start = start ∧ toLowerAscii (slice src start stop) = "@import".toList)) := by
  unfold atKeywordVisitor
  dsimp only
  split
  · exact ⟨Eq.refl _, Eq.refl _, fun h => Scope.noConfusion h, Eq.refl _,
      fun d' h => Scope.noConfusion h⟩
  · split
    · split
      · exact ⟨Eq.refl _, Eq.refl _, fun h => Scope.noConfusion h, Eq.refl _,
          fun d' h => Scope.noConfusion h⟩
      case isFalse hname _ =>
        refine ⟨Eq.refl _, Eq.refl _, fun h => Scope.noConfusion h, Eq.refl _, ?_⟩
        intro d' h
        right
        have h2 : ImportData.new start = d' := Scope.InAtImport.inj h
        subst h2
        exact ⟨Eq.refl _, by assumption⟩
    · split
      · exact ⟨Eq.refl _, Eq.refl _, fun h => h, Eq.refl _,
          fun d' h => Or.inl ⟨d', h, Eq.refl _⟩⟩
      · exact ⟨Eq.refl _, Eq.refl _, fun h => h, Eq.refl _,
          fun d' h => Or.inl ⟨d', h, Eq.refl _⟩⟩

theorem semicolonEmit_eq (src : List Char) (st : LexDependencies) (d : ImportData)
    (start stop : Nat) (url : List Char) (url_range : Range)
    (layer supports : Option (List Char)) :
    semicolonEmit src st d start stop url url_range layer supports =
      { st with
          dependencies := st.dependencies ++
            [Dependency.Import url { start := d.start, stop := stop } layer supports
              (get_media src (lastQualifierEnd d url_range) start)],
          scope := Scope.TopLevel } := by
  unfold semicolonEmit
  exact Eq.refl _

theorem semicolonOrderCheck_shape (src : List Char) (st : LexDependencies)
    (d : ImportData) (start stop : Nat) (url : List Char) (url_range : Range)
    (layer supports : Option (List Char)) :
    semicolonOrderCheck src st d start stop url url_range layer supports =
      semicolonEmit src st d start stop url url_range layer supports ∨
    ((∃ r, d.supports_range = some r) ∧
      ∃ w, semicolonOrderCheck src st d start stop url url_range layer supports =
        { st with warnings := st.warnings ++ [w], scope := Scope.TopLevel }) := by
  unfold semicolonOrderCheck
  split
  case h_1 layer_range supports_range hl hs =>
    split
    · exact Or.inr ⟨⟨supports_range, hs⟩, _, Eq.refl _⟩
    · exact Or.inl (Eq.refl _)
  case h_2 =>
    exact Or.inl (Eq.refl _)

theorem semicolonResolveSupports_shape (src : List Char) (st : LexDependencies)
    (d : ImportData) (start stop : Nat) (url : List Char) (url_range : Range)
    (layer : Option (List Char)) :
    (∃ sup ws, (ws = [] ∨ ∃ w, ws = [w]) ∧
      semicolonResolveSupports src st d start stop url url_range layer =
        { st with
            dependencies := st.dependencies ++
              [Dependency.Import url { start := d.start, stop := stop } layer sup
                (get_media src (lastQualifierEnd d url_range) start)],
            warnings := st.warnings ++ ws,
            scope := Scope.TopLevel }) ∨
    (∃ w, semicolonResolveSupports src st d start stop url url_range layer =
       { st with warnings := st.warnings ++ [w], scope := Scope.TopLevel }) := by
  unfold semicolonResolveSupports
  split
  case h_1 hsup =>
    rcases semicolonOrderCheck_shape src st d start stop url url_range layer none with
      hoc | ⟨_, w, hoc⟩
    · rw [hoc, semicolonEmit_eq]
      exact Or.inl ⟨none, [], Or.inl (Eq.refl _), by simp⟩
    · exact Or.inr ⟨w, hoc⟩
  case h_2 supports_start hsup =>
    rcases semicolonOrderCheck_shape src
        { st with warnings := st.warnings ++
            [Warning.Unexpected { start := start, stop := stop }
              { start := supports_start, stop := stop }] }
        d start stop url url_range layer none with
      hoc | ⟨⟨r, hsr⟩, w, hoc⟩
    · rw [hoc, semicolonEmit_eq]
      refine Or.inl ⟨none, [Warning.Unexpected { start := start, stop := stop }
        { start := supports_start, stop := stop }], Or.inr ⟨_, Eq.refl _⟩, ?_⟩
      exact Eq.refl _
    · simp [ImportData.supports_range, hsup] at hsr
  case h_3 value range hsup =>
    split
    · exact Or.inr ⟨_, Eq.refl _⟩
    · rcases semicolonOrderCheck_shape src st d start stop url url_range layer
          (some value) with hoc | ⟨_, w, hoc⟩
      · rw [hoc, semicolonEmit_eq]
        exact Or.inl ⟨some value, [], Or.inl (Eq.refl _), by simp⟩
      · exact Or.inr ⟨w, hoc⟩

/-- Outcome shape of finalizing an `@import` at its semicolon: either one
Import is appended (with at most one extra warning, from a still-open
`supports(`), or exactly one warning is appended and nothing else; in both
cases the scope returns to `TopLevel` and no other field changes. -/
theorem semicolonVisitor_inAtImport (src : List Char) (st : LexDependencies)
    (d : ImportData) (start stop : Nat) (h : st.scope = Scope.InAtImport d) :
    (∃ url url_range lay sup ws,
       d.url = some url ∧ d.url_range = some url_range ∧
       (ws = [] ∨ ∃ w, ws = [w]) ∧
       semicolonVisitor src st start stop =
         { st with
             dependencies := st.dependencies ++
               [Dependency.Import url { start := d.start, stop := stop } lay sup
                 (get_media src (lastQualifierEnd d url_range) start)],
             warnings := st.warnings ++ ws,
             scope := Scope.TopLevel }) ∨
    (∃ w, semicolonVisitor src st start stop =
       { st with warnings := st.warnings ++ [w], scope := Scope.TopLevel }) := by
  unfold semicolonVisitor
  rw [h]
  dsimp only
  cases hu : d.url with
  | none => exact Or.inr ⟨_, Eq.refl _⟩
  | some url =>
    dsimp only
    cases hr : d.url_range with
    | none => exact Or.inr ⟨_, Eq.refl _⟩
    | some url_range =>
      dsimp only
      cases hl : d.layer with
      | None =>
        rcases semicolonResolveSupports_shape src st d start stop url url_range none with
          ⟨sup, ws, hws, hrs⟩ | ⟨w, hrs⟩
        · exact Or.inl ⟨url, url_range, none, sup, ws, Eq.refl _, Eq.refl _, hws, hrs⟩
        · exact Or.inr ⟨w, hrs⟩
      | EndLayer value range =>
        dsimp only
        split
        · exact Or.inr ⟨_, Eq.refl _⟩
        · rcases semicolonResolveSupports_shape src st d start stop url url_range
              (some value) with ⟨sup, ws, hws, hrs⟩ | ⟨w, hrs⟩
          · exact Or.inl ⟨url, url_range, some value, sup, ws, Eq.refl _, Eq.refl _, hws, hrs⟩
          · exact Or.inr ⟨w, hrs⟩

/-- A `;` outside any at-rule scope leaves the state unchanged; in the two
invalid at-rule scopes it only returns the scope to `TopLevel`. -/
theorem semicolonVisitor_notImport (src : List Char) (st : LexDependencies)
    (start stop : Nat) (h : ∀ d, st.scope ≠ Scope.InAtImport d) :
    semicolonVisitor src st start stop = st ∨
    semicolonVisitor src st start stop = { st with scope := Scope.TopLevel } := by
  unfold semicolonVisitor
  cases hs : st.scope with
  | TopLevel => exact Or.inl (Eq.refl _)
  | InBlock => exact Or.inl (Eq.refl _)
  | InAtImport d => exact absurd hs (h d)
  | AtImportInvalid => exact Or.inr (Eq.refl _)
  | AtNamespaceInvalid => exact Or.inr (Eq.refl _)

/-- If `classify` recognizes a semicolon token, the source really holds a
`;` there and the token is one character wide. -/
theorem classify_semicolonTok (src : List Char) (i s e : Nat)
    (h : classify src i = TokenAction.semicolonTok s e) :
    src[s]? = some ';' ∧ e = s + 1 := by
  unfold classify at h
  split at h
  · exact absurd h (by simp)
  case h_2 c hc =>
    by_cases h1 : isWhiteSpace c = true
    · rw [if_pos h1] at h; exact absurd h (by simp)
    rw [if_neg h1] at h
    by_cases h2 : (c = '/' && src[i+1]? = some '*') = true
    · rw [if_pos h2] at h; exact absurd h (by simp)
    rw [if_neg h2] at h
    by_cases h3 : (c = '"' || c = '\x27') = true
    · rw [if_pos h3] at h; exact absurd h (by simp)
    rw [if_neg h3] at h
    by_cases h4 : (c = '@' && wouldStartIdent src (i + 1)) = true
    · rw [if_pos h4] at h; exact absurd h (by simp)
    rw [if_neg h4] at h
    by_cases h5 : (c = ':' && wouldStartIdent src (i + 1)) = true
    · rw [if_pos h5] at h
      try dsimp only at h
      split at h
      · simp at h
      · simp at h
    rw [if_neg h5] at h
    by_cases h6 : (c = '.' && wouldStartIdent src (i + 1)) = true
    · rw [if_pos h6] at h; exact absurd h (by simp)
    rw [if_neg h6] at h
    by_cases h7 : (c = '#' && wouldStartIdent src (i + 1)) = true
    · rw [if_pos h7] at h; exact absurd h (by simp)
    rw [if_neg h7] at h
    by_cases h8 : wouldStartIdent src i = true
    · rw [if_pos h8] at h
      try dsimp only at h
      split at h
      · split at h
        · try dsimp only at h
          split at h
          · split at h
            · simp at h
            · simp at h
          · simp at h
        · simp at h
      · simp at h
    rw [if_neg h8] at h
    by_cases h9 : c = '('
    · rw [if_pos h9] at h; exact absurd h (by simp)
    rw [if_neg h9] at h
    by_cases h10 : c = ')'
    · rw [if_pos h10] at h; exact absurd h (by simp)
    rw [if_neg h10] at h
    by_cases h11 : c = ','
    · rw [if_pos h11] at h; exact absurd h (by simp)
    rw [if_neg h11] at h
    by_cases h12 : c = ';'
    · rw [if_pos h12] at h
      obtain ⟨hs1, hs2⟩ := TokenAction.semicolonTok.inj h
      subst hs1
      subst hs2
      rw [hc, h12]
      exact ⟨Eq.refl _, Eq.refl _⟩
    rw [if_neg h12] at h
    by_cases h13 : c = '\x7b'
    · rw [if_pos h13] at h; exact absurd h (by simp)
    rw [if_neg h13] at h
    by_cases h14 : c = '\x7d'
    · rw [if_pos h14] at h; exact absurd h (by simp)
    rw [if_neg h14] at h
    exact absurd h (by simp)

theorem step_cases (src : List Char) (st : LexDependencies) (i : Nat) :
    Frame st (step src st i).1 ∨
    (∃ s e, (step src st i).1 = atKeywordVisitor src st s e) ∨
    (∃ s e, (step src st i).1 = semicolonVisitor src st s e ∧
      src[s]? = some ';' ∧ e = s + 1 ∧ (step src st i).2 = some e) ∨
    (step src st i).1 = leftCurlyBracketVisitor st ∨
    (step src st i).1 = rightCurlyBracketVisitor st := by
  have hstep : step src st i = dispatch src st (classify src i) := Eq.refl _
  cases ha : classify src i with
  | eof => rw [hstep, ha]; exact Or.inl (Frame.refl st)
  | skip n => rw [hstep, ha]; exact Or.inl (Frame.refl st)
  | stringTok s e => rw [hstep, ha]; exact Or.inl (frame_stringVisitor src st s e)
  | atKeywordTok s e => rw [hstep, ha]; exact Or.inr (Or.inl ⟨s, e, Eq.refl _⟩)
  | pseudoFunctionTok s e =>
    rw [hstep, ha]; exact Or.inl (frame_pseudoFunctionVisitor src st s e)
  | pseudoClassTok s e =>
    rw [hstep, ha]; exact Or.inl (frame_pseudoClassVisitor src st s e)
  | classTok s e => rw [hstep, ha]; exact Or.inl (frame_classVisitor src st s e)
  | idTok s e => rw [hstep, ha]; exact Or.inl (frame_idVisitor src st s e)
  | functionTok s e => rw [hstep, ha]; exact Or.inl (frame_functionVisitor src st s e)
  | urlTok s e cs ce => rw [hstep, ha]; exact Or.inl (frame_urlVisitor src st s e cs ce)
  | identTok s e => rw [hstep, ha]; exact Or.inl (frame_identVisitor src st s e)
  | leftParenTok s e => rw [hstep, ha]; exact Or.inl (frame_leftParenthesisVisitor st s e)
  | rightParenTok s e =>
    rw [hstep, ha]; exact Or.inl (frame_rightParenthesisVisitor src st s e)
  | commaTok n => rw [hstep, ha]; exact Or.inl (frame_commaVisitor st)
  | semicolonTok s e =>
    rw [hstep, ha]
    obtain ⟨h1, h2⟩ := classify_semicolonTok src i s e ha
    exact Or.inr (Or.inr (Or.inl ⟨s, e, Eq.refl _, h1, h2, Eq.refl _⟩))
  | leftCurlyTok n => rw [hstep, ha]; exact Or.inr (Or.inr (Or.inr (Or.inl (Eq.refl _))))
  | rightCurlyTok n => rw [hstep, ha]; exact Or.inr (Or.inr (Or.inr (Or.inr (Eq.refl _))))

/-- Fuel induction: a predicate preserved by every step is preserved by
the whole tokenizer loop. -/
theorem lexLoop_inv (src : List Char) (P : LexDependencies → Prop)
    (hstep : ∀ st i, P st → P (step src st i).1) :
    ∀ fuel (st : LexDependencies) (i : Nat), P st → P (lexLoop src fuel st i) := by
  intro fuel
  induction fuel with
  | zero => intro st i hP; exact hP
  | succ n ih =>
    intro st i hP
    unfold lexLoop
    have h2 := hstep st i
    rcases hst : step src st i with ⟨st', j?⟩
    rw [hst] at h2
    cases j? with
    | none => exact h2 hP
    | some j => exact ih st' j (h2 hP)

theorem semicolonVisitor_mode_data (src : List Char) (st : LexDependencies)
    (start stop : Nat) : (semicolonVisitor src st start stop).mode_data = st.mode_data := by
  by_cases h : ∃ d, st.scope = Scope.InAtImport d
  · obtain ⟨d, hd⟩ := h
    rcases semicolonVisitor_inAtImport src st d start stop hd with
      ⟨u, r, l, sup, ws, _, _, _, hres⟩ | ⟨w, hres⟩ <;> rw [hres]
  · push_neg at h
    rcases semicolonVisitor_notImport src st start stop h with hres | hres <;> rw [hres]

theorem leftCurlyBracketVisitor_facts (st : LexDependencies) :
    (leftCurlyBracketVisitor st).dependencies = st.dependencies ∧
    (leftCurlyBracketVisitor st).mode_data = st.mode_data ∧
    (∀ d', (leftCurlyBracketVisitor st).scope = Scope.InAtImport d' →
      st.scope = Scope.InAtImport d') := by
  unfold leftCurlyBracketVisitor
  split
  case h_1 heq => exact ⟨Eq.refl _, Eq.refl _, fun d' h => Scope.noConfusion h⟩
  case h_2 heq =>
    refine ⟨Eq.refl _, Eq.refl _, fun d' h => absurd h ?_⟩
    simp [heq]
  case h_3 => exact ⟨Eq.refl _, Eq.refl _, fun d' h => h⟩

theorem rightCurlyBracketVisitor_facts (st : LexDependencies) :
    (rightCurlyBracketVisitor st).dependencies = st.dependencies ∧
    (rightCurlyBracketVisitor st).mode_data = st.mode_data ∧
    (∀ d', (rightCurlyBracketVisitor st).scope = Scope.InAtImport d' →
      st.scope = Scope.InAtImport d') := by
  unfold rightCurlyBracketVisitor
  split
  case h_1 heq =>
    dsimp only
    split
    · exact ⟨Eq.refl _, Eq.refl _, fun d' h => Scope.noConfusion h⟩
    · refine ⟨Eq.refl _, Eq.refl _, fun d' h => absurd h ?_⟩
      simp [heq]
  case h_2 =>
    exact ⟨Eq.refl _, Eq.refl _, fun d' h => h⟩

/-- C7: while an `@import` rule's `supports(...)` is still open
(`InSupports`), a url token or a quoted string leaves the analyzer state
completely unchanged: the import's `url`/`url_range` are not set and no
dependency or warning is emitted. -/
theorem c7_in_supports_ignores_urls :
    ∀ (src : List Char) (st : LexDependencies) (d : ImportData)
      (start stop content_start content_end : Nat),
      st.scope = Scope.InAtImport d →
      d.in_supports = true →
      urlVisitor src st start stop content_start content_end = st ∧
      stringVisitor src st start stop = st := by
  intro src st d start stop cs ce hscope hsup
  constructor
  · unfold urlVisitor
    rw [hscope]
    dsimp only
    rw [if_pos hsup]
  · unfold stringVisitor
    rw [hscope]
    dsimp only
    simp [hsup]

theorem c7_witness :
    urlVisitor [] exampleSupportsState 0 5 2 4 = exampleSupportsState ∧
    stringVisitor [] exampleSupportsState 0 5 = exampleSupportsState :=
  c7_in_supports_ignores_urls [] exampleSupportsState exampleSupportsImportData
    0 5 2 4 (Eq.refl _) (Eq.refl _)

/-- C1 (counterexample): on `@import url(./a.css) layer screen;` the
analyzer emits no Import with `layer = None` at all — the single Import it
does emit carries `layer = Some("")`, because the `ident` visitor records
a bare `layer` keyword even after the url, and the semicolon assembly only
rejects a layer that starts *before* the url. -/
theorem c1_counterexample :
    (analyze none "@import url(./a.css) layer screen;").dependencies =
      [Dependency.Import "./a.css".toList { start := 0, stop := 34 } (some [])
        none (some " screen".toList)] ∧
    ((analyze none "@import url(./a.css) layer screen;").dependencies.any
      (fun dep => match dep with
        | Dependency.Import _ _ none _ _ => true
        | _ => false)) = false := by
  exact ⟨by decide, by decide⟩

/-- C1 (amended): for `@import url(./a.css) layer screen;` the analyzer
emits exactly one Import with request `./a.css`, `layer = Some("")` (the
bare `layer` keyword after the url is accepted as the unnamed-layer form),
`supports = None` and `media = Some(" screen")` (only the text after the
`layer` keyword, leading space kept), and no warning. -/
theorem c1_import_bare_layer :
    (analyze none "@import url(./a.css) layer screen;").dependencies =
      [Dependency.Import "./a.css".toList { start := 0, stop := 34 } (some [])
        none (some " screen".toList)] ∧
    (analyze none "@import url(./a.css) layer screen;").warnings = [] := by
  exact ⟨by decide, by decide⟩

/-- C2: each duplicate-url `@import` emits one `DuplicateUrl` warning but,
contrary to the repository's own test `duplicate_url` (tests/test.rs,
which asserts `dependencies.is_empty()`), the url remains recorded and the
semicolon assembly still emits an Import dependency for every one of the
four variants. -/
theorem c2_duplicate_url_still_imports :
    ((analyze none "@import url(./a.css) url(./a.css);").warnings =
        [Warning.DuplicateUrl { start := 0, stop := 33 }] ∧
      (analyze none "@import url(./a.css) url(./a.css);").dependencies =
        [Dependency.Import "./a.css".toList { start := 0, stop := 34 } none none
          (some " url(./a.css)".toList)]) ∧
    ((analyze none "@import url(./a.css) url(\"./a.css\");").warnings =
        [Warning.DuplicateUrl { start := 0, stop := 34 }] ∧
      importCount (analyze none "@import url(./a.css) url(\"./a.css\");").dependencies = 1) ∧
    ((analyze none "@import url(\"./a.css\") url(./a.css);").warnings =
        [Warning.DuplicateUrl { start := 0, stop := 35 }] ∧
      importCount (analyze none "@import url(\"./a.css\") url(./a.css);").dependencies = 1) ∧
    ((analyze none "@import url(\"./a.css\") url(\"./a.css\");").warnings =
        [Warning.DuplicateUrl { start := 0, stop := 36 }] ∧
      importCount (analyze none "@import url(\"./a.css\") url(\"./a.css\");").dependencies = 1) := by
  exact ⟨⟨by decide, by decide⟩, ⟨by decide, by decide⟩, ⟨by decide, by decide⟩,
    ⟨by decide, by decide⟩⟩

/-- C9: `:export \x7b foo: bar; baz:  qux ; \x7d` at top level with CSS
modules enabled yields exactly two ICSSExport records with trailing
whitespace trimmed from prop and value, plus one empty Replace covering
the whole block, and no warnings. -/
theorem c9_icss_export :
    (analyze (some (CssModulesModeData.new true))
        ":export \x7b foo: bar; baz:  qux ; \x7d").dependencies =
      [Dependency.ICSSExport "foo".toList "bar".toList,
       Dependency.ICSSExport "baz".toList "qux".toList,
       Dependency.Replace [] { start := 0, stop := 33 }] ∧
    (analyze (some (CssModulesModeData.new true))
        ":export \x7b foo: bar; baz:  qux ; \x7d").warnings = [] := by
  exact ⟨by decide, by decide⟩

/-- C4 (counterexample): in scenario 2 the parenthesized `layer(utilities)`
(range 23..39) starts *after* the url's range (8..22), yet the analyzer
emits the Import with `layer = Some("utilities")` and no `ExpectedBefore`
warning at all — the `ExpectedBefore` check fires in the opposite
direction (when the url's range starts after the layer's). -/
theorem c4_counterexample :
    (analyze none ("@import url(\"./a.css\") layer(utilities) " ++
        "supports(display: grid) screen and (min-width: 400px);")).dependencies =
      [Dependency.Import "./a.css".toList { start := 0, stop := 94 }
        (some "utilities".toList) (some "display: grid".toList)
        (some " screen and (min-width: 400px)".toList)] ∧
    (analyze none ("@import url(\"./a.css\") layer(utilities) " ++
        "supports(display: grid) screen and (min-width: 400px);")).warnings = [] := by
  exact ⟨by decide, by decide⟩

/-- C4 (amended): when the `@import` is finalized with a resolved url and
a parenthesized layer whose range starts *before* the url's range (i.e.
the url's range starts after the layer's), the analyzer emits
`ExpectedBefore{should_after: layer range, range: url range}`, emits no
Import, and returns to `TopLevel`; conversely, in scenario 2 where
`layer(utilities)` follows the url, the Import is emitted with
`layer = Some("utilities")`. -/
theorem c4_layer_before_url :
    (∀ (src : List Char) (st : LexDependencies) (d : ImportData) (start stop : Nat)
       (url : List Char) (url_range : Range) (value : List Char) (range : Range),
      st.scope = Scope.InAtImport d →
      d.url = some url →
      d.url_range = some url_range →
      d.layer = ImportDataLayer.EndLayer value range →
      url_range.start > range.start →
      semicolonVisitor src st start stop =
        { st with
            warnings := st.warnings ++ [Warning.ExpectedBefore range url_range],
            scope := Scope.TopLevel }) ∧
    (analyze none ("@import url(\"./a.css\") layer(utilities) " ++
        "supports(display: grid) screen and (min-width: 400px);")).dependencies =
      [Dependency.Import "./a.css".toList { start := 0, stop := 94 }
        (some "utilities".toList) (some "display: grid".toList)
        (some " screen and (min-width: 400px)".toList)] := by
  constructor
  · intro src st d start stop url url_range value range hscope hu hr hl hgt
    unfold semicolonVisitor
    rw [hscope]
    dsimp only
    rw [hu]
    dsimp only
    rw [hr]
    dsimp only
    rw [hl]
    dsimp only
    rw [if_pos hgt]
  · decide

theorem c4_witness :
    semicolonVisitor [] exampleLayerFirstState 16 17 =
      { exampleLayerFirstState with
          warnings := [Warning.ExpectedBefore { start := 2, stop := 7 }
            { start := 10, stop := 15 }],
          scope := Scope.TopLevel } :=
  c4_layer_before_url.1 [] exampleLayerFirstState exampleLayerFirstImportData 16 17
    "a".toList { start := 10, stop := 15 } [] { start := 2, stop := 7 }
    (Eq.refl _) (Eq.refl _) (Eq.refl _) (Eq.refl _) (by decide)

/-- C5 (counterexample): for `@import url(./b.css) print;` the emitted
media is `Some(" print")`, keeping the leading whitespace — the claim's
"with leading whitespace and comments skipped" text would require
`Some("print")`. -/
theorem c5_counterexample :
    (analyze none "@import url(./b.css) print;").dependencies =
      [Dependency.Import "./b.css".toList { start := 0, stop := 27 } none none
        (some " print".toList)] ∧
    (some " print".toList : Option (List Char)) ≠ some "print".toList := by
  exact ⟨by decide, by decide⟩

/-- C5 (amended): for every successfully assembled `@import`, the emitted
media field equals the *untrimmed* source text between the end of the last
qualifier (supports, else layer, else the url range) and the semicolon —
the leading whitespace/comment skip in `get_media` only validates the text
and does not remove it — and is `None` exactly when that text is empty. -/
theorem c5_media_untrimmed :
    ∀ (src : List Char) (st : LexDependencies) (d : ImportData) (start stop : Nat)
      (q : List Char) (rng : Range) (lay sup med : Option (List Char)),
      st.scope = Scope.InAtImport d →
      (semicolonVisitor src st start stop).dependencies =
        st.dependencies ++ [Dependency.Import q rng lay sup med] →
      ∃ url_range, d.url_range = some url_range ∧
        med = (if slice src (lastQualifierEnd d url_range) start = [] then none
               else some (slice src (lastQualifierEnd d url_range) start)) := by
  intro src st d start stop q rng lay sup med hscope hdeps
  rcases semicolonVisitor_inAtImport src st d start stop hscope with
    ⟨url, url_range, lay2, sup2, ws, hu, hr, hws, hres⟩ | ⟨w, hres⟩
  · rw [hres] at hdeps
    dsimp only at hdeps
    have h2 := List.append_cancel_left hdeps
    have h3 := List.cons_eq_cons.mp h2
    obtain ⟨h4, -⟩ := h3
    refine ⟨url_range, hr, ?_⟩
    have h5 := (Dependency.Import.inj h4.symm).2.2.2.2
    rw [h5]
    unfold get_media
    exact Eq.refl _
  · rw [hres] at hdeps
    dsimp only at hdeps
    exact absurd (congrArg List.length hdeps) (by simp)

theorem importCount_append (l ds : List Dependency)
    (hf : ∀ x ∈ ds, isImportDep x = false) :
    importCount (l ++ ds) = importCount l := by
  unfold importCount
  have h : ds.filter isImportDep = [] :=
    List.filter_eq_nil_iff.mpr fun a ha => by simp [hf a ha]
  rw [List.filter_append, h, List.append_nil]

theorem importCount_append_import (l : List Dependency) (q : List Char) (r : Range)
    (lay sup med : Option (List Char)) :
    importCount (l ++ [Dependency.Import q r lay sup med]) = importCount l + 1 := by
  unfold importCount
  rw [List.filter_append]
  simp [List.filter, isImportDep]

/-- C3: at most one `Dependency::Import` is emitted per `@import` rule.
Part 1: finalizing at the semicolon emits at most one Import; when it
emits none (assembly failed) it emits exactly one warning, and in every
case the scope returns to `TopLevel`.  Part 2: no other tokenizer step can
increase the Import count — a step that does was a semicolon seen in
`InAtImport` scope, it left the scope at `TopLevel`, and the pass
continues (the step does not abort). -/
theorem c3_one_import_per_rule :
    (∀ (src : List Char) (st : LexDependencies) (d : ImportData) (start stop : Nat),
      st.scope = Scope.InAtImport d →
      importCount (semicolonVisitor src st start stop).dependencies ≤
        importCount st.dependencies + 1 ∧
      (importCount (semicolonVisitor src st start stop).dependencies =
          importCount st.dependencies →
        (semicolonVisitor src st start stop).warnings.length = st.warnings.length + 1) ∧
      (semicolonVisitor src st start stop).scope = Scope.TopLevel) ∧
    (∀ (src : List Char) (st : LexDependencies) (i : Nat),
      importCount (step src st i).1.dependencies ≤ importCount st.dependencies + 1 ∧
      (importCount (step src st i).1.dependencies ≠ importCount st.dependencies →
        (∃ d, st.scope = Scope.InAtImport d) ∧
        (step src st i).1.scope = Scope.TopLevel ∧
        (step src st i).2 ≠ none)) := by
  constructor
  · intro src st d start stop hscope
    rcases semicolonVisitor_inAtImport src st d start stop hscope with
      ⟨url, url_range, lay, sup, ws, hu, hr, hws, hres⟩ | ⟨w, hres⟩
    · rw [hres]
      dsimp only
      rw [importCount_append_import]
      exact ⟨Nat.le_refl _, fun h => absurd h (by omega), Eq.refl _⟩
    · rw [hres]
      dsimp only
      exact ⟨Nat.le_succ _, fun _ => by simp, Eq.refl _⟩
  · intro src st i
    rcases step_cases src st i with
      hf | ⟨s, e, heq⟩ | ⟨s, e, heq, hsrc, hse, hcont⟩ | heq | heq
    · obtain ⟨⟨ds, hdeps, hfree⟩, _, _, _, _⟩ := hf
      rw [hdeps, importCount_append st.dependencies ds hfree]
      exact ⟨Nat.le_succ _, fun h => absurd (Eq.refl _) h⟩
    · rw [heq, (atKeywordVisitor_facts src st s e).1]
      exact ⟨Nat.le_succ _, fun h => absurd (Eq.refl _) h⟩
    · rw [heq]
      by_cases hsc : ∃ d, st.scope = Scope.InAtImport d
      · obtain ⟨d, hd⟩ := hsc
        rcases semicolonVisitor_inAtImport src st d s e hd with
          ⟨url, url_range, lay, sup, ws, hu, hr, hws, hres⟩ | ⟨w, hres⟩
        · rw [hres]
          dsimp only
          rw [importCount_append_import]
          refine ⟨Nat.le_refl _, fun _ => ⟨⟨d, hd⟩, ?_, ?_⟩⟩
          · exact Eq.refl _
          · rw [hcont]; exact Option.noConfusion
        · rw [hres]
          dsimp only
          exact ⟨Nat.le_succ _, fun h => absurd (Eq.refl _) h⟩
      · push_neg at hsc
        rcases semicolonVisitor_notImport src st s e hsc with hres | hres <;>
          rw [hres] <;>
          exact ⟨Nat.le_succ _, fun h => absurd (Eq.refl _) h⟩
    · rw [heq, (leftCurlyBracketVisitor_facts st).1]
      exact ⟨Nat.le_succ _, fun h => absurd (Eq.refl _) h⟩
    · rw [heq, (rightCurlyBracketVisitor_facts st).1]
      exact ⟨Nat.le_succ _, fun h => absurd (Eq.refl _) h⟩

theorem c3_witness :
    importCount (semicolonVisitor [] exampleImportReadyState 8 9).dependencies ≤
      importCount exampleImportReadyState.dependencies + 1 ∧
    (importCount (semicolonVisitor [] exampleImportReadyState 8 9).dependencies =
        importCount exampleImportReadyState.dependencies →
      (semicolonVisitor [] exampleImportReadyState 8 9).warnings.length =
        exampleImportReadyState.warnings.length + 1) ∧
    (semicolonVisitor [] exampleImportReadyState 8 9).scope = Scope.TopLevel :=
  c3_one_import_per_rule.1 [] exampleImportReadyState (ImportData.new 0) 8 9 (Eq.refl _)

theorem step_preserves_block_inv (src : List Char) (st : LexDependencies) (i : Nat)
    (hP : st.scope = Scope.InBlock → 1 ≤ st.block_nesting_level) :
    (step src st i).1.scope = Scope.InBlock → 1 ≤ (step src st i).1.block_nesting_level := by
  rcases step_cases src st i with hf | ⟨s, e, heq⟩ | ⟨s, e, heq, _, _, _⟩ | heq | heq
  · obtain ⟨_, hb, hs, _, _⟩ := hf
    intro h
    rw [hb]
    exact hP (hs h)
  · rw [heq]
    obtain ⟨_, hb, hs, _, _⟩ := atKeywordVisitor_facts src st s e
    intro h
    rw [hb]
    exact hP (hs h)
  · rw [heq]
    by_cases hsc : ∃ d, st.scope = Scope.InAtImport d
    · obtain ⟨d, hd⟩ := hsc
      rcases semicolonVisitor_inAtImport src st d s e hd with
        ⟨u, r, l, sup, ws, _, _, _, hres⟩ | ⟨w, hres⟩ <;>
        · rw [hres]
          intro h
          exact absurd h (by simp)
    · push_neg at hsc
      rcases semicolonVisitor_notImport src st s e hsc with hres | hres
      · rw [hres]; exact hP
      · rw [hres]; intro h; exact absurd h (by simp)
  · rw [heq]
    unfold leftCurlyBracketVisitor
    split
    · intro _; exact Nat.le_refl 1
    · intro _; exact Nat.succ_le_succ (Nat.zero_le _)
    · exact hP
  · rw [heq]
    unfold rightCurlyBracketVisitor
    split
    case h_1 hs =>
      dsimp only
      split
      case isTrue => intro h; exact absurd h (by simp)
      case isFalse hne => intro _; exact Nat.one_le_iff_ne_zero.mpr hne
    case h_2 => exact hP

/-- C10: whenever the scope is `InBlock` the nesting level is at least 1
(the invariant is preserved by every step, holds through the whole loop,
and holds for every analyzed source), so the `u32` decrement performed by
`right_curly_bracket` never underflows; and a stray `}` seen outside
`InBlock` leaves the entire state unchanged and emits nothing. -/
theorem c10_block_nesting_safe :
    (∀ (src : List Char) (st : LexDependencies) (i : Nat),
      (st.scope = Scope.InBlock → 1 ≤ st.block_nesting_level) →
      ((step src st i).1.scope = Scope.InBlock →
        1 ≤ (step src st i).1.block_nesting_level)) ∧
    (∀ (src : List Char) (fuel : Nat) (st : LexDependencies) (i : Nat),
      (st.scope = Scope.InBlock → 1 ≤ st.block_nesting_level) →
      ((lexLoop src fuel st i).scope = Scope.InBlock →
        1 ≤ (lexLoop src fuel st i).block_nesting_level)) ∧
    (∀ (mode : Option CssModulesModeData) (s : String),
      (analyze mode s).scope = Scope.InBlock →
        1 ≤ (analyze mode s).block_nesting_level) ∧
    (∀ (st : LexDependencies), st.scope ≠ Scope.InBlock →
      rightCurlyBracketVisitor st = st) := by
  refine ⟨step_preserves_block_inv, ?_, ?_, ?_⟩
  · intro src fuel st i hP
    exact lexLoop_inv src (fun st => st.scope = Scope.InBlock → 1 ≤ st.block_nesting_level)
      (fun st i h => step_preserves_block_inv src st i h) fuel st i hP
  · intro mode s
    exact lexLoop_inv s.toList
      (fun st => st.scope = Scope.InBlock → 1 ≤ st.block_nesting_level)
      (fun st i h => step_preserves_block_inv s.toList st i h) _ _ _
      (fun h => Scope.noConfusion h)
  · intro st h
    unfold rightCurlyBracketVisitor
    split
    case h_1 hs => exact absurd hs h
    case h_2 => exact Eq.refl _

theorem c10_witness :
    rightCurlyBracketVisitor (LexDependencies.new none) = LexDependencies.new none :=
  c10_block_nesting_safe.2.2.2 (LexDependencies.new none) (by decide)

theorem step_preserves_defaultMode (src : List Char) (st : LexDependencies) (i : Nat) :
    defaultMode (step src st i).1 = defaultMode st := by
  rcases step_cases src st i with hf | ⟨s, e, heq⟩ | ⟨s, e, heq, _, _, _⟩ | heq | heq
  · exact hf.2.2.2.1
  · rw [heq]; exact (atKeywordVisitor_facts src st s e).2.2.2.1
  · rw [heq]
    unfold defaultMode
    rw [semicolonVisitor_mode_data]
  · rw [heq]; unfold defaultMode; rw [(leftCurlyBracketVisitor_facts st).2.1]
  · rw [heq]; unfold defaultMode; rw [(rightCurlyBracketVisitor_facts st).2.1]

/-- C8 (counterexample): in `.a :global .b \x7b color: red; \x7d .c \x7b\x7d`
with local default, the `;` ending the declaration does *not* end the
effect of `:global` — the `InBlock` arm of `semicolon` is a no-op — so the
`current` mode is still `Global` after the block and even the fresh
selector `.c` yields no LocalIdent (the claim's semicolon reset would have
made it local again). -/
theorem c8_counterexample :
    (analyze (some (CssModulesModeData.new true))
        ".a :global .b \x7b color: red; \x7d .c \x7b\x7d").dependencies =
      [Dependency.LocalIdent "a".toList { start := 1, stop := 2 },
       Dependency.Replace [] { start := 3, stop := 11 }] ∧
    (analyze (some (CssModulesModeData.new true))
        ".a :global .b \x7b color: red; \x7d .c \x7b\x7d").mode_data =
      some { default := CssModulesMode.Local, current := CssModulesMode.Global } := by
  exact ⟨by decide, by decide⟩

/-- C8 (amended): with CSS modules enabled, the tri-state `current` mode
is reset to `None` at every comma; the `semicolon` visitor never changes
the locality mode (so the effect of `:global` persists past semicolons —
in `.a :global .b \x7b color: red; \x7d` with local default only `.a`
yields a LocalIdent while `.b` yields none because `current` remains
`Global`); and the `default` mode is never changed during a pass. -/
theorem c8_mode_discipline :
    (∀ (st : LexDependencies) (md : CssModulesModeData),
      st.mode_data = some md → (commaVisitor st).mode_data = some md.set_none) ∧
    (∀ (src : List Char) (st : LexDependencies) (start stop : Nat),
      (semicolonVisitor src st start stop).mode_data = st.mode_data) ∧
    (∀ (mode : Option CssModulesModeData) (s : String),
      defaultMode (analyze mode s) = mode.map CssModulesModeData.default) ∧
    ((analyze (some (CssModulesModeData.new true))
        ".a :global .b \x7b color: red; \x7d").dependencies =
      [Dependency.LocalIdent "a".toList { start := 1, stop := 2 },
       Dependency.Replace [] { start := 3, stop := 11 }] ∧
     (analyze (some (CssModulesModeData.new true))
        ".a :global .b \x7b color: red; \x7d").mode_data =
      some { default := CssModulesMode.Local, current := CssModulesMode.Global }) := by
  refine ⟨?_, semicolonVisitor_mode_data, ?_, by decide, by decide⟩
  · intro st md h
    unfold commaVisitor
    rw [h]
  · intro mode s
    refine lexLoop_inv s.toList
      (fun st => defaultMode st = mode.map CssModulesModeData.default)
      (fun st i h => (step_preserves_defaultMode s.toList st i).trans h) _ _ _ ?_
    exact Eq.refl _

theorem c8_witness :
    (commaVisitor (LexDependencies.new (some (CssModulesModeData.new true)))).mode_data =
      some (CssModulesModeData.new true).set_none :=
  c8_mode_discipline.1 (LexDependencies.new (some (CssModulesModeData.new true)))
    (CssModulesModeData.new true) (Eq.refl _)

/-- If the at-keyword slice lowercases to `@import` (a 7-character word),
so does the 7-character slice at the same start. -/
theorem toLower_slice_seven (src : List Char) (a b : Nat)
    (h : toLowerAscii (slice src a b) = "@import".toList) :
    toLowerAscii (slice src a (a + 7)) = "@import".toList := by
  have hlen : (slice src a b).length = 7 := by
    have h2 := congrArg List.length h
    simpa [toLowerAscii] using h2
  have hmin : 7 ≤ b - a := by
    unfold slice at hlen
    rw [List.length_take] at hlen
    omega
  have h7 : slice src a (a + 7) = slice src a b := by
    unfold slice
    have e1 : a + 7 - a = 7 := by omega
    rw [e1]
    have e2 : (src.drop a).take 7 = ((src.drop a).take (b - a)).take 7 := by
      rw [List.take_take, Nat.min_eq_left hmin]
    rw [e2]
    exact List.take_of_length_le (le_of_eq hlen)
  rw [h7, h]

theorem step_preserves_importRangeInv (src : List Char) (st : LexDependencies)
    (i : Nat) (hP : importRangeInv src st) : importRangeInv src (step src st i).1 := by
  obtain ⟨hscope, hdeps⟩ := hP
  rcases step_cases src st i with hf | ⟨s, e, heq⟩ | ⟨s, e, heq, hsrc, hse, _⟩ | heq | heq
  · obtain ⟨⟨ds, hd, hfree⟩, _, _, _, hi⟩ := hf
    constructor
    · intro d hsc
      obtain ⟨d0, hd0, hstart⟩ := hi d hsc
      rw [hstart]
      exact hscope d0 hd0
    · intro req rng lay sup med hmem
      rw [hd] at hmem
      rcases List.mem_append.mp hmem with hmem | hmem
      · exact hdeps req rng lay sup med hmem
      · exact absurd (hfree _ hmem) (by simp [isImportDep])
  · obtain ⟨hdeq, _, _, _, hi⟩ := atKeywordVisitor_facts src st s e
    rw [heq]
    constructor
    · intro d hsc
      rcases hi d hsc with ⟨d0, hd0, hstart⟩ | ⟨hstart, hname⟩
      · rw [hstart]; exact hscope d0 hd0
      · rw [hstart]; exact toLower_slice_seven src s e hname
    · intro req rng lay sup med hmem
      rw [hdeq] at hmem
      exact hdeps req rng lay sup med hmem
  · rw [heq]
    by_cases hsc : ∃ d, st.scope = Scope.InAtImport d
    · obtain ⟨d, hd⟩ := hsc
      rcases semicolonVisitor_inAtImport src st d s e hd with
        ⟨url, url_range, lay, sup, ws, hu, hr, hws, hres⟩ | ⟨w, hres⟩
      · rw [hres]
        constructor
        · intro d' h; exact absurd h (by simp)
        · intro req rng lay2 sup2 med hmem
          dsimp only at hmem
          rcases List.mem_append.mp hmem with hmem | hmem
          · exact hdeps req rng lay2 sup2 med hmem
          · rw [List.mem_singleton] at hmem
            obtain ⟨-, hrng, -⟩ := Dependency.Import.inj hmem
            rw [hrng]
            refine ⟨?_, ?_⟩
            · dsimp only
              rw [hse]
              simpa using hsrc
            · exact hscope d hd
      · rw [hres]
        constructor
        · intro d' h; exact absurd h (by simp)
        · intro req rng lay2 sup2 med hmem
          exact hdeps req rng lay2 sup2 med hmem
    · push_neg at hsc
      rcases semicolonVisitor_notImport src st s e hsc with hres | hres
      · rw [hres]; exact ⟨hscope, hdeps⟩
      · rw [hres]
        exact ⟨fun d' h => absurd h (by simp), fun req rng lay sup med hmem =>
          hdeps req rng lay sup med hmem⟩
  · rw [heq]
    obtain ⟨hdeq, _, hi⟩ := leftCurlyBracketVisitor_facts st
    refine ⟨fun d hsc2 => hscope d (hi d hsc2), ?_⟩
    intro req rng lay sup med hmem
    rw [hdeq] at hmem
    exact hdeps req rng lay sup med hmem
  · rw [heq]
    obtain ⟨hdeq, _, hi⟩ := rightCurlyBracketVisitor_facts st
    refine ⟨fun d hsc2 => hscope d (hi d hsc2), ?_⟩
    intro req rng lay sup med hmem
    rw [hdeq] at hmem
    exact hdeps req rng lay sup med hmem

/-- C6 (counterexample): for `@IMPORT url(./a.css);` (upper-case keyword)
the analyzer emits the Import — the at-keyword is matched
case-insensitively — but the source bytes at `range.start` spell
`@IMPORT`, not `@import`. -/
theorem c6_counterexample :
    (analyze none "@IMPORT url(./a.css);").dependencies =
      [Dependency.Import "./a.css".toList { start := 0, stop := 21 } none none none] ∧
    slice "@IMPORT url(./a.css);".toList 0 7 ≠ "@import".toList := by
  exact ⟨by decide, by decide⟩

/-- C6 (amended): for every input and every emitted `Dependency::Import`,
the source character at `range.end - 1` is `;` and the source characters
starting at `range.start` spell `@import` up to ASCII case (the at-keyword
is matched after ASCII lowercasing). -/
theorem c6_import_range_shape :
    ∀ (mode : Option CssModulesModeData) (s : String) (req : List Char) (rng : Range)
      (lay sup med : Option (List Char)),
      Dependency.Import req rng lay sup med ∈ (analyze mode s).dependencies →
      s.toList[rng.stop - 1]? = some ';' ∧
      toLowerAscii (slice s.toList rng.start (rng.start + 7)) = "@import".toList := by
  intro mode s req rng lay sup med hmem
  have hinv : importRangeInv s.toList (analyze mode s) := by
    refine lexLoop_inv s.toList (importRangeInv s.toList)
      (fun st i h => step_preserves_importRangeInv s.toList st i h) _ _ _ ?_
    exact ⟨fun d h => Scope.noConfusion h,
      fun req rng lay sup med h => absurd h (by simp [LexDependencies.new])⟩
  exact hinv.2 req rng lay sup med hmem

theorem c6_witness :
    "@import url(./a.css);".toList[(20 : Nat)]? = some ';' ∧
    toLowerAscii (slice "@import url(./a.css);".toList 0 (0 + 7)) = "@import".toList :=
  c6_import_range_shape none "@import url(./a.css);" "./a.css".toList
    { start := 0, stop := 21 } none none none (by decide)

theorem c5_witness :
    ∃ url_range, exampleMediaImportData.url_range = some url_range ∧
      (some " print".toList : Option (List Char)) =
        (if slice "@import url(./b.css) print;".toList
              (lastQualifierEnd exampleMediaImportData url_range) 26 = [] then none
         else some (slice "@import url(./b.css) print;".toList
              (lastQualifierEnd exampleMediaImportData url_range) 26)) :=
  c5_media_untrimmed "@import url(./b.css) print;".toList exampleMediaState
    exampleMediaImportData 26 27 "./b.css".toList { start := 0, stop := 27 }
    none none (some " print".toList) (Eq.refl _) (by decide)

end CML
